import Mathlib

/-!
Parking lot: allocation and occupancy engine

A shallow embedding of `service/parking_service.go`, of the SQL statements of
`repository/parking_repository.go` and `repository/vehicle_repository.go`, and of
`domain/models.go`.

The database is an explicit value (`Store`): three tables and the two `SERIAL`
sequences the inserts draw from.  The bookkeeping columns `created_at` and
`updated_at` are read by no decision of the service and are left out.  Ids and
timestamps are natural numbers, floor, row and column are integers; no
arithmetic is done on any of them beyond `+ 1` on a sequence.  Every call of
`time.Now()` that ends up in `entry_time` or `exit_time` is an explicit argument
`now`.  Every repository call that can return a non-nil `error` (connection
loss, a value the column type rejects, ...) has a flag in `DBFaults` saying
whether it does so in this invocation; a statement that fails writes nothing.
A nil pointer dereference is the outcome `Outcome.nilDeref`.

SQL leaves the order of rows that compare equal under `ORDER BY` open.  The two
queries with an `ORDER BY` are made deterministic here (`latestByEntryTime`,
`List.insertionSort`); every theorem below that depends on which row comes first
assumes the rows in question do not compare equal.
-/

namespace ParkingLot

/-! ## domain/models.go -/

/-- Go `type VehicleType string`. -/
abbrev VehicleType := String

def Motorcycle : VehicleType := "motorcycle"
def Bicycle : VehicleType := "bicycle"
def Car : VehicleType := "car"

/-- Row of table `vehicles` (`domain.Vehicle`). -/
structure Vehicle where
  ID : Nat
  LicensePlate : String
  Type_ : VehicleType
deriving DecidableEq, Repr

/-- Row of table `parking_spots` (`domain.ParkingSpot`). -/
structure ParkingSpot where
  ID : Nat
  Floor : Int
  Row : Int
  Column : Int
  IsActive : Bool
deriving DecidableEq, Repr

/-- Row of table `parking_records` (`domain.ParkingRecord`); `ExitTime` is the
`sql.NullTime`, `none` when `Valid` is false. -/
structure ParkingRecord where
  ID : Nat
  VehicleID : Nat
  ParkingSpotID : Nat
  EntryTime : Nat
  ExitTime : Option Nat
deriving DecidableEq, Repr

/-- `func (p ParkingRecord) IsParked() bool { return !p.ExitTime.Valid }`. -/
def ParkingRecord.IsParked (p : ParkingRecord) : Bool := !p.ExitTime.isSome

/-! ## The database -/

/-- The three tables of `config.CreateTables`, rows in insertion order, and the
last value handed out by the `SERIAL` sequence of `vehicles.id` and of
`parking_records.id`. -/
structure Store where
  vehicles : List Vehicle
  spots : List ParkingSpot
  records : List ParkingRecord
  vehicleSeq : Nat
  recordSeq : Nat
deriving DecidableEq, Repr

/-- `config.ParkingConfig.FloorVehicleMap`, a Go `map[int]domain.VehicleType`,
as the list of its entries. -/
abbrev FloorVehicleMap := List (Int × VehicleType)

/-- Which repository calls return a non-nil `error` during one service call. -/
structure DBFaults where
  getVehicle : Bool
  createVehicle : Bool
  getLastRecord : Bool
  getSpot : Bool
  getAvailableSpots : Bool
  createRecord : Bool
  updateRecord : Bool
deriving DecidableEq, Repr

/-- The storage collaborator answers every call. -/
def noFaults : DBFaults := ⟨false, false, false, false, false, false, false⟩

/-- Only the lookup of the vehicle's last parking record fails. -/
def lookupFails : DBFaults := ⟨false, false, true, false, false, false, false⟩

/-- The errors built by `fmt.Errorf` / `errors.New` in the service, one
constructor per message. -/
inductive ServiceError where
  /-- "error getting vehicle: %w" -/
  | gettingVehicle
  /-- "error creating vehicle: %w" -/
  | creatingVehicle
  /-- "error getting last parking record: %w" -/
  | gettingLastRecord
  /-- "error getting parking spot: %w" -/
  | gettingSpot
  /-- "vehicle is already parked at spot %d-%d-%d" -/
  | alreadyParked (floor row column : Int)
  /-- "error getting available spots: %w" -/
  | gettingAvailableSpots
  /-- "no available parking spots" -/
  | noAvailableSpots
  /-- "error creating parking record: %w" -/
  | creatingRecord
  /-- "vehicle with license plate %s not found" -/
  | vehicleNotFound (licensePlate : String)
  /-- "error checking active parking: %w" -/
  | checkingActiveParking
  /-- "vehicle with license plate %s is not parked" -/
  | notParked (licensePlate : String)
  /-- "error updating parking record: %w" -/
  | updatingRecord
  /-- "no parking history found for vehicle with license plate %s" -/
  | noHistory (licensePlate : String)
deriving DecidableEq, Repr

/-- What a service call does: return a value, return an error, or stop with a
runtime panic on a nil pointer. -/
inductive Outcome (α : Type) where
  | ok : α → Outcome α
  | error : ServiceError → Outcome α
  | nilDeref : Outcome α
deriving DecidableEq, Repr

/-! ## repository/vehicle_repository.go -/

/-- `SELECT ... FROM vehicles WHERE license_plate = $1`, first row;
`sql.ErrNoRows` becomes `nil, nil`. -/
def GetVehicleByLicensePlate (st : Store) (licensePlate : String) : Option Vehicle :=
  st.vehicles.find? (fun v => v.LicensePlate == licensePlate)

/-- `INSERT INTO vehicles (license_plate, type, ...) RETURNING id`: the id is
the next value of the sequence; returns the new store and the vehicle with its
`ID` filled in. -/
def CreateVehicle (st : Store) (licensePlate : String) (vehicleType : VehicleType) :
    Store × Vehicle :=
  let v : Vehicle := ⟨st.vehicleSeq + 1, licensePlate, vehicleType⟩
  ({ st with vehicles := st.vehicles ++ [v], vehicleSeq := st.vehicleSeq + 1 }, v)

/-! ## repository/parking_repository.go -/

/-- `ORDER BY ps.floor, ps.row, ps.column`: the order of the triples. -/
def spotLE (a b : ParkingSpot) : Prop :=
  a.Floor < b.Floor ∨ (a.Floor = b.Floor ∧ (a.Row < b.Row ∨ (a.Row = b.Row ∧ a.Column ≤ b.Column)))

instance : DecidableRel spotLE := fun a b => by unfold spotLE; exact inferInstance

/-- The subquery `SELECT parking_spot_id FROM parking_records WHERE exit_time IS NULL`. -/
def openSpotIDs (st : Store) : List Nat :=
  (st.records.filter (fun r => r.ExitTime.isNone)).map (fun r => r.ParkingSpotID)

/-- The `WHERE` clause of `GetAvailableSpots`: `ps.is_active = true`, no row of
the left-joined subquery matches `ps.id`, and, only when `len(floors) > 0`,
`ps.floor = ANY(floors)`. -/
def availableRow (st : Store) (floors : List Int) (ps : ParkingSpot) : Bool :=
  ps.IsActive && !(openSpotIDs st).contains ps.ID &&
    (if floors.length > 0 then floors.contains ps.Floor else true)

/-- `GetAvailableSpots(floors ...int)`: the rows passing the `WHERE` clause, in
the order of `ORDER BY ps.floor, ps.row, ps.column`. -/
def GetAvailableSpots (st : Store) (floors : List Int) : List ParkingSpot :=
  (st.spots.filter (availableRow st floors)).insertionSort spotLE

/-- `SELECT ... FROM parking_spots WHERE id = $1`, first row. -/
def GetSpotByID (st : Store) (id : Nat) : Option ParkingSpot :=
  st.spots.find? (fun s => s.ID == id)

/-- `INSERT INTO parking_records (vehicle_id, parking_spot_id, entry_time, ...)
RETURNING id`: an open record with the next id of the sequence. -/
def CreateParkingRecord (st : Store) (vehicleID parkingSpotID entryTime : Nat) : Store :=
  let r : ParkingRecord := ⟨st.recordSeq + 1, vehicleID, parkingSpotID, entryTime, none⟩
  { st with records := st.records ++ [r], recordSeq := st.recordSeq + 1 }

/-- What `UPDATE parking_records SET exit_time = $1 WHERE id = $3` does to one row. -/
def setExitTime (record r : ParkingRecord) : ParkingRecord :=
  if r.ID = record.ID then { r with ExitTime := record.ExitTime } else r

/-- `UPDATE parking_records SET exit_time = $1, updated_at = $2 WHERE id = $3`. -/
def UpdateParkingRecord (st : Store) (record : ParkingRecord) : Store :=
  { st with records := st.records.map (setExitTime record) }

/-- The method `UpdateParkingRecord` with its `error` result,
`_, err := r.db.Exec(query, record.ExitTime, time.Now(), record.ID); return err`:
the error is non-nil (`true`) exactly when the statement fails in storage
(`fails`); the statement has no condition on `exit_time`, and an update that
matches a closed row, or no row, is not an error. -/
def execUpdateParkingRecord (fails : Bool) (st : Store) (record : ParkingRecord) :
    Store × Bool :=
  if fails then (st, true) else (UpdateParkingRecord st record, false)

/-- `ORDER BY entry_time DESC LIMIT 1` over some rows: a row whose entry time no
other row exceeds; among rows with equal entry time, the one stored first. -/
def latestByEntryTime : List ParkingRecord → Option ParkingRecord
  | [] => none
  | r :: rs =>
    match latestByEntryTime rs with
    | none => some r
    | some r' => if r.EntryTime < r'.EntryTime then some r' else some r

/-- `SELECT ... FROM parking_records WHERE vehicle_id = $1 ORDER BY entry_time
DESC LIMIT 1`; `sql.ErrNoRows` becomes `nil, nil`. -/
def GetLastParkingRecordByVehicleID (st : Store) (vehicleID : Nat) : Option ParkingRecord :=
  latestByEntryTime (st.records.filter (fun r => r.VehicleID == vehicleID))

/-! ## service/parking_service.go -/

/-- Lines 68-75 of `ParkVehicle`: the floors `f` with `FloorVehicleMap[f] == vehicleType`. -/
def floorsFor (cfg : FloorVehicleMap) (vehicleType : VehicleType) : List Int :=
  (cfg.filter (fun e => e.2 == vehicleType)).map (fun e => e.1)

/-- Lines 50-98 of `ParkVehicle`, from the lookup of the last record on, for the
vehicle resolved or created before. -/
def parkResolved (cfg : FloorVehicleMap) (db : DBFaults) (now : Nat) (st : Store)
    (vehicle : Vehicle) (vehicleType : VehicleType) : Store × Outcome ParkingSpot :=
  if db.getLastRecord then (st, .error .gettingLastRecord) else
  match GetLastParkingRecordByVehicleID st vehicle.ID with
  | none => (st, .nilDeref)
  | some lastRecord =>
    if lastRecord.IsParked then
      if db.getSpot then (st, .error .gettingSpot) else
      match GetSpotByID st lastRecord.ParkingSpotID with
      | none => (st, .nilDeref)
      | some spot => (st, .error (.alreadyParked spot.Floor spot.Row spot.Column))
    else
      if db.getAvailableSpots then (st, .error .gettingAvailableSpots) else
      match GetAvailableSpots st (floorsFor cfg vehicleType) with
      | [] => (st, .error .noAvailableSpots)
      | spot :: _ =>
        if db.createRecord then (st, .error .creatingRecord) else
        (CreateParkingRecord st vehicle.ID spot.ID now, .ok spot)

/-- `func (s *parkingService) ParkVehicle(licensePlate, vehicleType)`. -/
def ParkVehicle (cfg : FloorVehicleMap) (db : DBFaults) (now : Nat) (st : Store)
    (licensePlate : String) (vehicleType : VehicleType) : Store × Outcome ParkingSpot :=
  if db.getVehicle then (st, .error .gettingVehicle) else
  match GetVehicleByLicensePlate st licensePlate with
  | some vehicle => parkResolved cfg db now st vehicle vehicleType
  | none =>
    if db.createVehicle then (st, .error .creatingVehicle) else
    let (st1, vehicle) := CreateVehicle st licensePlate vehicleType
    parkResolved cfg db now st1 vehicle vehicleType

/-- `func (s *parkingService) UnparkVehicle(licensePlate)`. -/
def UnparkVehicle (db : DBFaults) (now : Nat) (st : Store) (licensePlate : String) :
    Store × Outcome Unit :=
  if db.getVehicle then (st, .error .gettingVehicle) else
  match GetVehicleByLicensePlate st licensePlate with
  | none => (st, .error (.vehicleNotFound licensePlate))
  | some vehicle =>
    if db.getLastRecord then (st, .error .checkingActiveParking) else
    match GetLastParkingRecordByVehicleID st vehicle.ID with
    | none => (st, .nilDeref)
    | some lastRecord =>
      if !lastRecord.IsParked then (st, .error (.notParked licensePlate)) else
      if db.updateRecord then (st, .error .updatingRecord) else
      (UpdateParkingRecord st { lastRecord with ExitTime := some now }, .ok ())

/-- `func (s *parkingService) GetAllAvailableSpots()`. -/
def GetAllAvailableSpots (db : DBFaults) (st : Store) : Outcome (List ParkingSpot) :=
  if db.getAvailableSpots then .error .gettingAvailableSpots else
  .ok (GetAvailableSpots st [])

/-- `func (s *parkingService) SearchVehicle(licensePlate)`: the spot pointer
(possibly nil) and the boolean `!lastRecord.IsParked()`. -/
def SearchVehicle (db : DBFaults) (st : Store) (licensePlate : String) :
    Outcome (Option ParkingSpot × Bool) :=
  if db.getVehicle then .error .gettingVehicle else
  match GetVehicleByLicensePlate st licensePlate with
  | none => .error (.vehicleNotFound licensePlate)
  | some vehicle =>
    if db.getLastRecord then .error .gettingLastRecord else
    match GetLastParkingRecordByVehicleID st vehicle.ID with
    | none => .error (.noHistory licensePlate)
    | some lastRecord =>
      if db.getSpot then .error .gettingSpot else
      .ok (GetSpotByID st lastRecord.ParkingSpotID, !lastRecord.IsParked)

/-! ## Vocabulary of the properties -/

/-- No open session refers to the spot. -/
def Unoccupied (st : Store) (sp : ParkingSpot) : Prop :=
  ∀ r ∈ st.records, r.IsParked = true → r.ParkingSpotID ≠ sp.ID

/-- `vehicle_id INT NOT NULL REFERENCES vehicles(id)` of `config.CreateTables`. -/
def VehicleFK (st : Store) : Prop :=
  ∀ r ∈ st.records, ∃ v ∈ st.vehicles, v.ID = r.VehicleID

instance (st : Store) : Decidable (VehicleFK st) := by unfold VehicleFK; exact inferInstance

/-- `vehicles.id SERIAL`: every id in the table was handed out by the sequence. -/
def VehicleSeqAhead (st : Store) : Prop :=
  ∀ v ∈ st.vehicles, v.ID ≤ st.vehicleSeq

instance (st : Store) : Decidable (VehicleSeqAhead st) := by
  unfold VehicleSeqAhead; exact inferInstance

/-- `parking_spots.id SERIAL PRIMARY KEY`: no two rows share an id. -/
def SpotPK (st : Store) : Prop :=
  st.spots.Pairwise (fun a b => a.ID ≠ b.ID)

instance (st : Store) : Decidable (SpotPK st) := by unfold SpotPK; exact inferInstance

/-! ## Sequential execution -/

/-- One request to the service. -/
inductive Call where
  | park (licensePlate : String) (vehicleType : VehicleType)
  | unpark (licensePlate : String)
deriving DecidableEq, Repr

/-- A request, the reading of the clock during it, and the storage failures
during it. -/
structure Step where
  call : Call
  now : Nat
  db : DBFaults
deriving DecidableEq, Repr

/-- The store after one request; a request that ends in an error or in a panic
(recovered by the request layer) leaves whatever it had written. -/
def step (cfg : FloorVehicleMap) (st : Store) (s : Step) : Store :=
  match s.call with
  | .park licensePlate vehicleType => (ParkVehicle cfg s.db s.now st licensePlate vehicleType).1
  | .unpark licensePlate => (UnparkVehicle s.db s.now st licensePlate).1

/-- The store after a sequence of requests executed one at a time. -/
def run (cfg : FloorVehicleMap) (st : Store) (steps : List Step) : Store :=
  steps.foldl (step cfg) st

/-- The open sessions of a vehicle. -/
def openSessionsOfVehicle (st : Store) (vehicleID : Nat) : List ParkingRecord :=
  st.records.filter (fun r => r.VehicleID == vehicleID && r.IsParked)

/-- Every vehicle has at most one open session. -/
def AtMostOneOpenPerVehicle (st : Store) : Prop :=
  ∀ vehicleID, (openSessionsOfVehicle st vehicleID).length ≤ 1

/-- An open session is its vehicle's latest by entry time: every other session
of the vehicle entered earlier. -/
def OpenIsLatest (st : Store) : Prop :=
  ∀ r ∈ st.records, r.IsParked = true →
    ∀ r' ∈ st.records, r'.VehicleID = r.VehicleID → r' = r ∨ r'.EntryTime < r.EntryTime

instance (st : Store) : Decidable (OpenIsLatest st) := by
  unfold OpenIsLatest; exact inferInstance

/-- The clock reading `t` is later than every entry time in the store. -/
def ClockAfterStore (st : Store) (t : Nat) : Prop :=
  ∀ r ∈ st.records, r.EntryTime < t

instance (st : Store) (t : Nat) : Decidable (ClockAfterStore st t) := by
  unfold ClockAfterStore; exact inferInstance

/-- The open sessions that refer to a spot. -/
def openSessionsOfSpot (st : Store) (spotID : Nat) : List ParkingRecord :=
  st.records.filter (fun r => r.ParkingSpotID == spotID && r.IsParked)

/-- Every spot is referred to by at most one open session. -/
def AtMostOneOpenPerSpot (st : Store) : Prop :=
  ∀ spotID, (openSessionsOfSpot st spotID).length ≤ 1

/-! ## Concrete stores -/

/-- Two floors for cars. -/
def lowestCfg : FloorVehicleMap := [(1, Car), (2, Car)]

/-- Free spots (2,1,3), (2,1,1), (1,5,5); three known cars, each with one closed
session. -/
def lowestStore : Store :=
  { vehicles := [⟨1, "A", Car⟩, ⟨2, "B", Car⟩, ⟨3, "C", Car⟩],
    spots := [⟨1, 2, 1, 3, true⟩, ⟨2, 2, 1, 1, true⟩, ⟨3, 1, 5, 5, true⟩],
    records := [⟨1, 1, 1, 1, some 2⟩, ⟨2, 2, 1, 3, some 4⟩, ⟨3, 3, 1, 5, some 6⟩],
    vehicleSeq := 3, recordSeq := 3 }

/-- `lowestStore` after "A" parked at time 10. -/
def lowestStore1 : Store :=
  { lowestStore with
    records := lowestStore.records ++ [⟨4, 1, 3, 10, none⟩], recordSeq := 4 }

/-- `lowestStore1` after "B" parked at time 11. -/
def lowestStore2 : Store :=
  { lowestStore1 with
    records := lowestStore1.records ++ [⟨5, 2, 2, 11, none⟩], recordSeq := 5 }

/-- One floor, for cars; one free spot on it. -/
def freshCfg : FloorVehicleMap := [(1, Car)]

/-- A lot right after provisioning: one active spot, no vehicle, no session. -/
def freshStore : Store :=
  { vehicles := [], spots := [⟨1, 1, 1, 1, true⟩], records := [],
    vehicleSeq := 0, recordSeq := 0 }

/-- `freshStore` with the vehicle row of plate "B1" and nothing else. -/
def freshStoreB1 : Store :=
  { freshStore with vehicles := [⟨1, "B1", Car⟩], vehicleSeq := 1 }

/-- One floor for cars; a known motorcycle whose only session is closed. -/
def motoStore : Store :=
  { vehicles := [⟨1, "M1", Motorcycle⟩], spots := [⟨1, 1, 1, 1, true⟩],
    records := [⟨1, 1, 1, 1, some 2⟩], vehicleSeq := 1, recordSeq := 1 }

/-- A known car whose only session, closed, carries an entry time (100) later
than the clock readings of the requests that follow; two free car spots. -/
def futureStore : Store :=
  { vehicles := [⟨1, "A", Car⟩], spots := [⟨1, 1, 1, 1, true⟩, ⟨2, 1, 1, 2, true⟩],
    records := [⟨1, 1, 1, 100, some 101⟩], vehicleSeq := 1, recordSeq := 1 }

/-- Two parks of "A", at clock readings 5 and 6. -/
def twoParks : List Step :=
  [⟨.park "A" Car, 5, noFaults⟩, ⟨.park "A" Car, 6, noFaults⟩]

/-- Requests after "A" parked at time 10: "A" again, "B", "A" leaves, "A" returns. -/
def busySteps : List Step :=
  [⟨.park "A" Car, 11, noFaults⟩, ⟨.park "B" Car, 12, noFaults⟩,
    ⟨.unpark "A", 13, noFaults⟩, ⟨.park "A" Car, 14, noFaults⟩]

/-- The only spot is taken by "B"; "A" is known and not parked. -/
def fullStore : Store :=
  { vehicles := [⟨1, "A", Car⟩, ⟨2, "B", Car⟩], spots := [⟨1, 1, 1, 1, true⟩],
    records := [⟨1, 1, 1, 1, some 2⟩, ⟨2, 2, 1, 3, none⟩], vehicleSeq := 2, recordSeq := 2 }

/-- One spot taken by "B", one free, one inactive. -/
def mixedStore : Store :=
  { vehicles := [⟨1, "B", Car⟩],
    spots := [⟨1, 1, 1, 1, true⟩, ⟨2, 1, 1, 2, true⟩, ⟨3, 1, 1, 3, false⟩],
    records := [⟨1, 1, 1, 3, none⟩], vehicleSeq := 1, recordSeq := 1 }

/-- `vehicles.id SERIAL PRIMARY KEY`: no two rows share an id. -/
def VehiclePK (st : Store) : Prop :=
  st.vehicles.Pairwise (fun a b => a.ID ≠ b.ID)

instance (st : Store) : Decidable (VehiclePK st) := by unfold VehiclePK; exact inferInstance

/-- The plate is on record and the vehicle's last session is closed. -/
def KnownUnparked (st : Store) (licensePlate : String) : Prop :=
  ∃ v last, GetVehicleByLicensePlate st licensePlate = some v ∧
    GetLastParkingRecordByVehicleID st v.ID = some last ∧ last.IsParked = false

/-- `ParkVehicle` for one plate after the other, each with its clock reading, all
with the same class, storage answering every call: the final store and the
outcomes in order. -/
def parkEach (cfg : FloorVehicleMap) (vehicleType : VehicleType) :
    Store → List (String × Nat) → Store × List (Outcome ParkingSpot)
  | st, [] => (st, [])
  | st, (licensePlate, now) :: rest =>
    let r := ParkVehicle cfg noFaults now st licensePlate vehicleType
    let rr := parkEach cfg vehicleType r.1 rest
    (rr.1, r.2 :: rr.2)

/-- The example store with only the two free spots of floor 2. -/
def twoSpotStore : Store :=
  { lowestStore with spots := [⟨1, 2, 1, 3, true⟩, ⟨2, 2, 1, 1, true⟩] }

/-- Floor 1 for cars, floor 2 for motorcycles. -/
def classCfg : FloorVehicleMap := [(1, Car), (2, Motorcycle)]

/-- The car "A" is on record with one closed session; one free spot on each
floor. -/
def classStore : Store :=
  { vehicles := [⟨1, "A", Car⟩], spots := [⟨1, 1, 1, 1, true⟩, ⟨2, 2, 1, 1, true⟩],
    records := [⟨1, 1, 1, 1, some 2⟩], vehicleSeq := 1, recordSeq := 1 }

/-- Park, unpark, park, park of "A", the clock reading 200 at the first park and
150 at the second. -/
def regressSteps : List Step :=
  [⟨.park "A" Car, 200, noFaults⟩, ⟨.unpark "A", 210, noFaults⟩,
    ⟨.park "A" Car, 150, noFaults⟩, ⟨.park "A" Car, 160, noFaults⟩]

/-! ## The spot catalog query -/

instance spotLE_total : IsTotal ParkingSpot spotLE :=
  ⟨fun a b => by unfold spotLE; omega⟩

instance spotLE_trans : IsTrans ParkingSpot spotLE :=
  ⟨fun a b c h1 h2 => by unfold spotLE at *; omega⟩

theorem mem_openSpotIDs (st : Store) (id : Nat) :
    id ∈ openSpotIDs st ↔ ∃ r ∈ st.records, r.IsParked = true ∧ r.ParkingSpotID = id := by
  unfold openSpotIDs ParkingRecord.IsParked
  simp only [List.mem_map, List.mem_filter]
  constructor
  · rintro ⟨r, ⟨hr, ho⟩, rfl⟩
    refine ⟨r, hr, ?_, rfl⟩
    cases h : r.ExitTime <;> simp_all
  · rintro ⟨r, hr, ho, rfl⟩
    refine ⟨r, ⟨hr, ?_⟩, rfl⟩
    cases h : r.ExitTime <;> simp_all

theorem not_mem_openSpotIDs (st : Store) (sp : ParkingSpot) :
    sp.ID ∉ openSpotIDs st ↔ Unoccupied st sp := by
  rw [mem_openSpotIDs]
  unfold Unoccupied
  constructor
  · intro h r hr ho he
    exact h ⟨r, hr, ho, he⟩
  · rintro h ⟨r, hr, ho, he⟩
    exact h r hr ho he

theorem availableRow_iff (st : Store) (floors : List Int) (sp : ParkingSpot) :
    availableRow st floors sp = true ↔
      sp.IsActive = true ∧ Unoccupied st sp ∧ (floors = [] ∨ sp.Floor ∈ floors) := by
  rw [← not_mem_openSpotIDs]
  unfold availableRow
  cases floors with
  | nil => simp
  | cons f fs => simp [and_assoc]

theorem mem_GetAvailableSpots (st : Store) (floors : List Int) (sp : ParkingSpot) :
    sp ∈ GetAvailableSpots st floors ↔
      sp ∈ st.spots ∧ sp.IsActive = true ∧ Unoccupied st sp ∧
        (floors = [] ∨ sp.Floor ∈ floors) := by
  unfold GetAvailableSpots
  rw [List.mem_insertionSort, List.mem_filter, availableRow_iff]

theorem GetAvailableSpots_head_le (st : Store) (floors : List Int) (sp : ParkingSpot)
    (rest : List ParkingSpot) (h : GetAvailableSpots st floors = sp :: rest) :
    ∀ t ∈ GetAvailableSpots st floors, spotLE sp t := by
  have hs : List.Sorted spotLE (GetAvailableSpots st floors) := by
    unfold GetAvailableSpots
    exact List.sorted_insertionSort spotLE _
  rw [h] at hs ⊢
  intro t ht
  rcases List.mem_cons.1 ht with rfl | ht
  · exact (total_of spotLE t t).elim id id
  · exact List.rel_of_sorted_cons hs t ht

theorem GetAvailableSpots_congr (st1 st2 : Store) (floors : List Int)
    (hs : st1.spots = st2.spots) (hr : st1.records = st2.records) :
    GetAvailableSpots st1 floors = GetAvailableSpots st2 floors := by
  unfold GetAvailableSpots availableRow openSpotIDs
  rw [hs, hr]

theorem mem_floorsFor (cfg : FloorVehicleMap) (vt : VehicleType) (f : Int) :
    f ∈ floorsFor cfg vt ↔ (f, vt) ∈ cfg := by
  unfold floorsFor
  simp only [List.mem_map, List.mem_filter, beq_iff_eq]
  constructor
  · rintro ⟨⟨a, b⟩, ⟨hm, rfl⟩, rfl⟩
    exact hm
  · intro h
    exact ⟨(f, vt), ⟨h, rfl⟩, rfl⟩

/-! ## Case analysis of `ParkVehicle` -/

theorem parkResolved_store (cfg : FloorVehicleMap) (db : DBFaults) (now : Nat) (st : Store)
    (v : Vehicle) (vt : VehicleType) :
    (parkResolved cfg db now st v vt).1 = st ∧
        (∀ s, (parkResolved cfg db now st v vt).2 ≠ .ok s) ∨
      ∃ last s rest, GetLastParkingRecordByVehicleID st v.ID = some last ∧
        last.IsParked = false ∧ GetAvailableSpots st (floorsFor cfg vt) = s :: rest ∧
        parkResolved cfg db now st v vt = (CreateParkingRecord st v.ID s.ID now, .ok s) := by
  unfold parkResolved
  split
  · left; simp
  · split
    · left; simp
    · rename_i last hlast
      split
      · split
        · left; simp
        · split <;> (left; simp)
      · rename_i hpark
        split
        · left; simp
        · split
          · left; simp
          · rename_i s rest havail
            split
            · left; simp
            · right
              exact ⟨last, s, rest, hlast, by simpa using hpark, havail, rfl⟩

theorem parkResolved_ok {cfg : FloorVehicleMap} {db : DBFaults} {now : Nat} {st st' : Store}
    {v : Vehicle} {vt : VehicleType} {s : ParkingSpot}
    (h : parkResolved cfg db now st v vt = (st', .ok s)) :
    ∃ last rest, GetLastParkingRecordByVehicleID st v.ID = some last ∧
      last.IsParked = false ∧ GetAvailableSpots st (floorsFor cfg vt) = s :: rest ∧
      st' = CreateParkingRecord st v.ID s.ID now := by
  rcases parkResolved_store cfg db now st v vt with ⟨_, hno⟩ | ⟨last, s0, rest, h1, h2, h3, h4⟩
  · exact absurd (congrArg Prod.snd h) (hno s)
  · rw [h4] at h
    have hs : s0 = s := by
      have := congrArg Prod.snd h
      simpa using this
    subst hs
    exact ⟨last, rest, h1, h2, h3, (congrArg Prod.fst h).symm⟩

theorem parkResolved_no_record (cfg : FloorVehicleMap) (db : DBFaults) (now : Nat) (st : Store)
    (v : Vehicle) (vt : VehicleType) (h : GetLastParkingRecordByVehicleID st v.ID = none) :
    parkResolved cfg db now st v vt =
      (st, if db.getLastRecord then .error .gettingLastRecord else .nilDeref) := by
  unfold parkResolved
  rw [h]
  split <;> rfl

theorem ParkVehicle_cases (cfg : FloorVehicleMap) (db : DBFaults) (now : Nat) (st : Store)
    (plate : String) (vt : VehicleType) :
    ParkVehicle cfg db now st plate vt = (st, .error .gettingVehicle) ∨
    (∃ v, GetVehicleByLicensePlate st plate = some v ∧
      ParkVehicle cfg db now st plate vt = parkResolved cfg db now st v vt) ∨
    (GetVehicleByLicensePlate st plate = none ∧
      ParkVehicle cfg db now st plate vt = (st, .error .creatingVehicle)) ∨
    (GetVehicleByLicensePlate st plate = none ∧
      ParkVehicle cfg db now st plate vt =
        parkResolved cfg db now (CreateVehicle st plate vt).1 (CreateVehicle st plate vt).2 vt) := by
  unfold ParkVehicle
  split
  · left; rfl
  · split
    · rename_i v hv
      right; left
      exact ⟨v, hv, rfl⟩
    · rename_i hv
      split
      · right; right; left
        exact ⟨hv, rfl⟩
      · right; right; right
        exact ⟨hv, rfl⟩

theorem CreateVehicle_spots (st : Store) (plate : String) (vt : VehicleType) :
    (CreateVehicle st plate vt).1.spots = st.spots := rfl

theorem CreateVehicle_records (st : Store) (plate : String) (vt : VehicleType) :
    (CreateVehicle st plate vt).1.records = st.records := rfl

theorem CreateVehicle_ID (st : Store) (plate : String) (vt : VehicleType) :
    (CreateVehicle st plate vt).2.ID = st.vehicleSeq + 1 := rfl

theorem GetVehicle_created (st : Store) (plate : String) (vt : VehicleType)
    (h : GetVehicleByLicensePlate st plate = none) :
    GetVehicleByLicensePlate (CreateVehicle st plate vt).1 plate =
      some (CreateVehicle st plate vt).2 := by
  unfold GetVehicleByLicensePlate at h ⊢
  simp only [CreateVehicle, List.find?_append, h, Option.none_or]
  simp

/-- A park that returns a spot went through the allocation of lines 68-98 on
the spots and records of the store it was called on, for the vehicle the plate
resolves to from then on. -/
theorem ParkVehicle_ok {cfg : FloorVehicleMap} {db : DBFaults} {now : Nat} {st st' : Store}
    {plate : String} {vt : VehicleType} {s : ParkingSpot}
    (h : ParkVehicle cfg db now st plate vt = (st', .ok s)) :
    ∃ (stm : Store) (v : Vehicle) (last : ParkingRecord) (rest : List ParkingSpot),
      stm.spots = st.spots ∧ stm.records = st.records ∧
      GetVehicleByLicensePlate stm plate = some v ∧
      GetLastParkingRecordByVehicleID stm v.ID = some last ∧ last.IsParked = false ∧
      GetAvailableSpots st (floorsFor cfg vt) = s :: rest ∧
      st' = CreateParkingRecord stm v.ID s.ID now := by
  rcases ParkVehicle_cases cfg db now st plate vt with h1 | ⟨v, hv, h1⟩ | ⟨_, h1⟩ | ⟨hv, h1⟩
  · rw [h1] at h; simp at h
  · rw [h1] at h
    obtain ⟨last, rest, a, b, c, d⟩ := parkResolved_ok h
    exact ⟨st, v, last, rest, rfl, rfl, hv, a, b, c, d⟩
  · rw [h1] at h; simp at h
  · rw [h1] at h
    obtain ⟨last, rest, a, b, c, d⟩ := parkResolved_ok h
    refine ⟨_, _, last, rest, CreateVehicle_spots st plate vt, CreateVehicle_records st plate vt,
      GetVehicle_created st plate vt hv, a, b, ?_, d⟩
    rw [← c]
    exact GetAvailableSpots_congr _ _ _ (CreateVehicle_spots st plate vt).symm
      (CreateVehicle_records st plate vt).symm

/-! ## Allocation order -/

/-- C1: when at least one floor is mapped to the class and `ParkVehicle` returns
a spot, that spot is active, has no open session, lies on a floor mapped to the
class, and precedes or equals, in (floor, row, column) order, every active spot
with no open session on a floor mapped to the class. -/
theorem C1_park_returns_lowest_free_spot (cfg : FloorVehicleMap) (db : DBFaults) (now : Nat)
    (st st' : Store) (plate : String) (vt : VehicleType) (s : ParkingSpot)
    (hfloor : ∃ f, (f, vt) ∈ cfg)
    (hpark : ParkVehicle cfg db now st plate vt = (st', .ok s)) :
    (s ∈ st.spots ∧ s.IsActive = true ∧ Unoccupied st s ∧ (s.Floor, vt) ∈ cfg) ∧
      ∀ t ∈ st.spots, t.IsActive = true → Unoccupied st t → (t.Floor, vt) ∈ cfg →
        spotLE s t := by
  obtain ⟨stm, v, last, rest, _, _, _, _, _, havail, _⟩ := ParkVehicle_ok hpark
  obtain ⟨f, hf⟩ := hfloor
  have hne : floorsFor cfg vt ≠ [] := by
    intro h
    have := (mem_floorsFor cfg vt f).2 hf
    rw [h] at this
    exact List.not_mem_nil _ this
  have hmem : ∀ t, t ∈ GetAvailableSpots st (floorsFor cfg vt) ↔
      t ∈ st.spots ∧ t.IsActive = true ∧ Unoccupied st t ∧ (t.Floor, vt) ∈ cfg := by
    intro t
    rw [mem_GetAvailableSpots, mem_floorsFor]
    simp [hne]
  constructor
  · apply (hmem s).1
    rw [havail]
    exact List.mem_cons_self _ _
  · intro t ht ha hu he
    exact GetAvailableSpots_head_le st _ s rest havail t ((hmem t).2 ⟨ht, ha, hu, he⟩)

/-- C1, the example of the specification: with free eligible spots (2,1,3),
(2,1,1), (1,5,5), three successive parks of distinct known vehicles return
(1,5,5), then (2,1,1), then (2,1,3), and (1,5,5) precedes every free eligible
spot of the first store. -/
theorem C1_park_returns_lowest_free_spot_witness :
    (∃ f, (f, Car) ∈ lowestCfg) ∧
    ParkVehicle lowestCfg noFaults 10 lowestStore "A" Car =
      (lowestStore1, .ok ⟨3, 1, 5, 5, true⟩) ∧
    ParkVehicle lowestCfg noFaults 11 lowestStore1 "B" Car =
      (lowestStore2, .ok ⟨2, 2, 1, 1, true⟩) ∧
    (ParkVehicle lowestCfg noFaults 12 lowestStore2 "C" Car).2 = .ok ⟨1, 2, 1, 3, true⟩ ∧
    ∀ t ∈ lowestStore.spots, t.IsActive = true → Unoccupied lowestStore t →
      (t.Floor, Car) ∈ lowestCfg → spotLE ⟨3, 1, 5, 5, true⟩ t :=
  ⟨⟨1, by decide⟩, by decide, by decide, by decide,
    (C1_park_returns_lowest_free_spot lowestCfg noFaults 10 lowestStore lowestStore1 "A" Car
      ⟨3, 1, 5, 5, true⟩ ⟨1, by decide⟩ (by decide)).2⟩

/-! ## First sight of a plate -/

theorem latestByEntryTime_eq_none (l : List ParkingRecord) :
    latestByEntryTime l = none ↔ l = [] := by
  cases l with
  | nil => simp [latestByEntryTime]
  | cons r rs =>
    simp only [latestByEntryTime]
    split
    · simp
    · split <;> simp

theorem GetLast_eq_none (st : Store) (id : Nat) :
    GetLastParkingRecordByVehicleID st id = none ↔ ∀ r ∈ st.records, r.VehicleID ≠ id := by
  unfold GetLastParkingRecordByVehicleID
  rw [latestByEntryTime_eq_none, List.filter_eq_nil_iff]
  simp

/-- Under the foreign key and the sequence, the vehicle just inserted has no
parking record. -/
theorem GetLast_created (st : Store) (plate : String) (vt : VehicleType)
    (hfk : VehicleFK st) (hseq : VehicleSeqAhead st) :
    GetLastParkingRecordByVehicleID (CreateVehicle st plate vt).1
      (CreateVehicle st plate vt).2.ID = none := by
  rw [GetLast_eq_none, CreateVehicle_records, CreateVehicle_ID]
  intro r hr he
  obtain ⟨v, hv, hid⟩ := hfk r hr
  have := hseq v hv
  omega

/-- C2 (what the code does): for a plate with no vehicle row, in a store that
satisfies the foreign key of `parking_records.vehicle_id` and whose vehicle ids
came from the sequence, `ParkVehicle` inserts the vehicle, finds no last record,
and stops on the nil pointer at `lastRecord.IsParked()`: no session is created and
no spot is returned, whatever spots are free. -/
theorem C2_first_park_dereferences_nil (cfg : FloorVehicleMap) (now : Nat) (st : Store)
    (plate : String) (vt : VehicleType)
    (hnew : GetVehicleByLicensePlate st plate = none)
    (hfk : VehicleFK st) (hseq : VehicleSeqAhead st) :
    ParkVehicle cfg noFaults now st plate vt = ((CreateVehicle st plate vt).1, .nilDeref) := by
  have h : ParkVehicle cfg noFaults now st plate vt =
      parkResolved cfg noFaults now (CreateVehicle st plate vt).1
        (CreateVehicle st plate vt).2 vt := by
    unfold ParkVehicle
    rw [hnew]
    rfl
  rw [h, parkResolved_no_record _ _ _ _ _ _ (GetLast_created st plate vt hfk hseq)]
  rfl

/-- C2 at a lot with one free car spot and no vehicle: the park of "B1" ends in
the nil dereference, leaving the vehicle row and no session. -/
theorem C2_first_park_dereferences_nil_witness :
    GetVehicleByLicensePlate freshStore "B1" = none ∧
    (∃ sp ∈ freshStore.spots, sp.IsActive = true ∧ Unoccupied freshStore sp ∧
      (sp.Floor, Car) ∈ freshCfg) ∧
    ParkVehicle freshCfg noFaults 10 freshStore "B1" Car = (freshStoreB1, .nilDeref) ∧
    freshStoreB1.records = [] :=
  ⟨by decide, ⟨⟨1, 1, 1, 1, true⟩, by decide, rfl, by intro r hr; simp [freshStore] at hr,
      by decide⟩,
    C2_first_park_dereferences_nil freshCfg 10 freshStore "B1" Car (by decide) (by decide)
      (by decide), rfl⟩

/-! ## Floors of a class with no floor -/

/-- C3 (what the code does): with the only floor mapped to cars, no floor is
mapped to motorcycles, the floor list passed to `GetAvailableSpots` is empty, the
query then carries no floor restriction, and the park of a known motorcycle
returns the spot on the car floor and commits a session on it. -/
theorem C3_no_floor_for_class_parks_anywhere :
    floorsFor freshCfg Motorcycle = [] ∧
    (ParkVehicle freshCfg noFaults 10 motoStore "M1" Motorcycle).2 = .ok ⟨1, 1, 1, 1, true⟩ ∧
    ((1 : Int), Motorcycle) ∉ freshCfg ∧
    (ParkVehicle freshCfg noFaults 10 motoStore "M1" Motorcycle).1.records =
      motoStore.records ++ [⟨2, 1, 1, 10, none⟩] := by
  decide

/-! ## What one request does to the table of sessions -/

theorem UnparkVehicle_store (db : DBFaults) (now : Nat) (st : Store) (plate : String) :
    UnparkVehicle db now st plate = (st, (UnparkVehicle db now st plate).2) ∧
        (UnparkVehicle db now st plate).2 ≠ .ok () ∨
      ∃ v last, GetVehicleByLicensePlate st plate = some v ∧
        GetLastParkingRecordByVehicleID st v.ID = some last ∧ last.IsParked = true ∧
        UnparkVehicle db now st plate =
          (UpdateParkingRecord st { last with ExitTime := some now }, .ok ()) := by
  unfold UnparkVehicle
  split
  · left; simp
  · split
    · left; simp
    · rename_i v hv
      split
      · left; simp
      · split
        · left; simp
        · rename_i last hlast
          split
          · left; simp
          · rename_i hp
            split
            · left; simp
            · right
              exact ⟨v, last, hv, hlast, by simpa using hp, rfl⟩

theorem GetLast_congr (st1 st2 : Store) (id : Nat) (h : st1.records = st2.records) :
    GetLastParkingRecordByVehicleID st1 id = GetLastParkingRecordByVehicleID st2 id := by
  unfold GetLastParkingRecordByVehicleID
  rw [h]

theorem Unoccupied_congr (st1 st2 : Store) (sp : ParkingSpot) (h : st1.records = st2.records) :
    Unoccupied st1 sp ↔ Unoccupied st2 sp := by
  unfold Unoccupied
  rw [h]

/-- The table of sessions after one request: unchanged, or one open session
appended for a vehicle whose last session was closed, on a spot no open session
referred to, or the exit time of the rows with one id set. -/
theorem step_records (cfg : FloorVehicleMap) (st : Store) (s : Step) :
    (step cfg st s).records = st.records ∨
    (∃ (v : Nat) (sp : ParkingSpot) (last : ParkingRecord) (id : Nat),
      GetLastParkingRecordByVehicleID st v = some last ∧ last.IsParked = false ∧
      Unoccupied st sp ∧
      (step cfg st s).records = st.records ++ [⟨id, v, sp.ID, s.now, none⟩]) ∨
    (∃ x : ParkingRecord, x.ExitTime = some s.now ∧
      (step cfg st s).records = st.records.map (setExitTime x)) := by
  unfold step
  cases hc : s.call with
  | park plate vt =>
    simp only
    have key : ∀ (stm : Store) (v : Vehicle), stm.records = st.records → stm.spots = st.spots →
        (parkResolved cfg s.db s.now stm v vt).1.records = st.records ∨
        (∃ (w : Nat) (sp : ParkingSpot) (last : ParkingRecord) (id : Nat),
          GetLastParkingRecordByVehicleID st w = some last ∧ last.IsParked = false ∧
          Unoccupied st sp ∧
          (parkResolved cfg s.db s.now stm v vt).1.records =
            st.records ++ [⟨id, w, sp.ID, s.now, none⟩]) := by
      intro stm v hr hs
      rcases parkResolved_store cfg s.db s.now stm v vt with ⟨h1, _⟩ | ⟨last, sp, rest, a, b, c, d⟩
      · left; rw [h1, hr]
      · right
        refine ⟨v.ID, sp, last, stm.recordSeq + 1, ?_, b, ?_, ?_⟩
        · rw [← a]; exact GetLast_congr _ _ _ hr.symm
        · rw [← Unoccupied_congr stm st sp hr]
          have hm : sp ∈ GetAvailableSpots stm (floorsFor cfg vt) := by
            rw [c]; exact List.mem_cons_self _ _
          exact ((mem_GetAvailableSpots _ _ _).1 hm).2.2.1
        · rw [d]
          simp [CreateParkingRecord, hr]
    rcases ParkVehicle_cases cfg s.db s.now st plate vt with h | ⟨v, _, h⟩ | ⟨_, h⟩ | ⟨_, h⟩
    · left; rw [h]
    · rw [h]
      rcases key st v rfl rfl with h' | h'
      · exact Or.inl h'
      · exact Or.inr (Or.inl h')
    · left; rw [h]
    · rw [h]
      rcases key _ (CreateVehicle st plate vt).2 (CreateVehicle_records st plate vt)
        (CreateVehicle_spots st plate vt) with h' | h'
      · exact Or.inl h'
      · exact Or.inr (Or.inl h')
  | unpark plate =>
    simp only
    rcases UnparkVehicle_store s.db s.now st plate with ⟨h, _⟩ | ⟨v, last, _, _, _, h⟩
    · left; rw [h]
    · right; right
      refine ⟨{ last with ExitTime := some s.now }, rfl, ?_⟩
      rw [h]
      rfl

/-! ## Closing a session -/

theorem setExitTime_VehicleID (x r : ParkingRecord) :
    (setExitTime x r).VehicleID = r.VehicleID := by
  unfold setExitTime; split <;> rfl

theorem setExitTime_ParkingSpotID (x r : ParkingRecord) :
    (setExitTime x r).ParkingSpotID = r.ParkingSpotID := by
  unfold setExitTime; split <;> rfl

theorem setExitTime_EntryTime (x r : ParkingRecord) :
    (setExitTime x r).EntryTime = r.EntryTime := by
  unfold setExitTime; split <;> rfl

/-- A row still open after the update was open before and was not touched. -/
theorem setExitTime_open {x r : ParkingRecord} {t : Nat} (hx : x.ExitTime = some t)
    (h : (setExitTime x r).IsParked = true) : setExitTime x r = r ∧ r.IsParked = true := by
  unfold setExitTime at h ⊢
  split at h
  · simp [ParkingRecord.IsParked, hx] at h
  · rename_i hne
    simp [hne, h]

theorem length_filter_map_le (p : ParkingRecord → Bool) (f : ParkingRecord → ParkingRecord)
    (hf : ∀ r, p (f r) = true → p r = true) (l : List ParkingRecord) :
    ((l.map f).filter p).length ≤ (l.filter p).length := by
  induction l with
  | nil => simp
  | cons a l ih =>
    rw [List.map_cons]
    by_cases h : p (f a) = true
    · rw [List.filter_cons_of_pos h, List.filter_cons_of_pos (hf a h)]
      simp only [List.length_cons]
      omega
    · rw [List.filter_cons_of_neg h]
      by_cases h2 : p a = true
      · rw [List.filter_cons_of_pos h2]
        simp only [List.length_cons]
        omega
      · rw [List.filter_cons_of_neg h2]
        exact ih

/-! ## At most one open session per spot -/

theorem step_AtMostOneOpenPerSpot (cfg : FloorVehicleMap) (st : Store) (s : Step)
    (h : AtMostOneOpenPerSpot st) : AtMostOneOpenPerSpot (step cfg st s) := by
  intro spotID
  unfold openSessionsOfSpot
  rcases step_records cfg st s with e | ⟨v, sp, last, id, _, _, hfree, e⟩ | ⟨x, hx, e⟩
  · rw [e]; exact h spotID
  · rw [e, List.filter_append, List.length_append]
    by_cases hs : sp.ID = spotID
    · have hnone : st.records.filter (fun r => r.ParkingSpotID == spotID && r.IsParked) = [] := by
        rw [List.filter_eq_nil_iff]
        intro r hr
        simp only [Bool.and_eq_true, beq_iff_eq, not_and, Bool.not_eq_true]
        intro hsp
        by_contra hopen
        exact hfree r hr (by simpa using hopen) (hsp.trans hs.symm)
      rw [hnone]
      simp only [List.length_nil, zero_add]
      exact List.length_filter_le _ _
    · have hnew : [(⟨id, v, sp.ID, s.now, none⟩ : ParkingRecord)].filter
          (fun r => r.ParkingSpotID == spotID && r.IsParked) = [] := by
        simp [hs]
      rw [hnew]
      exact h spotID
  · rw [e]
    refine le_trans (length_filter_map_le _ _ ?_ _) (h spotID)
    intro r hr
    simp only [Bool.and_eq_true, beq_iff_eq] at hr ⊢
    rw [setExitTime_ParkingSpotID] at hr
    exact ⟨hr.1, (setExitTime_open hx hr.2).2⟩

/-- C5: starting from a store in which every spot is referred to by at most one
open session, after any sequence of `ParkVehicle` and `UnparkVehicle` calls
executed one at a time, with any clock readings and any storage failures, every
spot is still referred to by at most one open session. -/
theorem C5_one_open_session_per_spot (cfg : FloorVehicleMap) (st : Store) (steps : List Step)
    (h : AtMostOneOpenPerSpot st) : AtMostOneOpenPerSpot (run cfg st steps) := by
  unfold run
  induction steps generalizing st with
  | nil => exact h
  | cons s steps ih =>
    rw [List.foldl_cons]
    exact ih _ (step_AtMostOneOpenPerSpot cfg st s h)

/-! ## The latest session of a vehicle -/

theorem latestByEntryTime_mem {l : List ParkingRecord} {r : ParkingRecord}
    (h : latestByEntryTime l = some r) : r ∈ l := by
  induction l generalizing r with
  | nil => simp [latestByEntryTime] at h
  | cons a rs ih =>
    simp only [latestByEntryTime] at h
    cases hrs : latestByEntryTime rs with
    | none =>
      rw [hrs] at h
      simp only [Option.some.injEq] at h
      rw [← h]; exact List.mem_cons_self _ _
    | some r' =>
      rw [hrs] at h
      simp only at h
      split at h
      · simp only [Option.some.injEq] at h
        rw [← h]; exact List.mem_cons_of_mem _ (ih hrs)
      · simp only [Option.some.injEq] at h
        rw [← h]; exact List.mem_cons_self _ _

/-- A row that entered strictly later than every other row is the one the query
returns. -/
theorem latestByEntryTime_of_strict_max (l : List ParkingRecord) (r : ParkingRecord)
    (hr : r ∈ l) (hmax : ∀ r' ∈ l, r' = r ∨ r'.EntryTime < r.EntryTime) :
    latestByEntryTime l = some r := by
  induction l with
  | nil => simp at hr
  | cons a rs ih =>
    have ha : a = r ∨ a.EntryTime < r.EntryTime := hmax a (List.mem_cons_self _ _)
    have hrs : ∀ r' ∈ rs, r' = r ∨ r'.EntryTime < r.EntryTime :=
      fun r' h' => hmax r' (List.mem_cons_of_mem _ h')
    simp only [latestByEntryTime]
    cases hl : latestByEntryTime rs with
    | none =>
      simp only
      have : rs = [] := (latestByEntryTime_eq_none rs).1 hl
      subst this
      simp only [List.mem_singleton] at hr
      rw [hr]
    | some r2 =>
      simp only
      have h2 : r2 ∈ rs := latestByEntryTime_mem hl
      by_cases hin : r ∈ rs
      · have := ih hin hrs
        rw [hl] at this
        simp only [Option.some.injEq] at this
        subst this
        rcases ha with ha | ha
        · subst ha; simp
        · simp [ha]
      · have har : a = r := by
          rcases List.mem_cons.1 hr with h | h
          · exact h.symm
          · exact absurd h hin
        subst har
        rcases hrs r2 h2 with h3 | h3
        · subst h3; exact absurd h2 hin
        · have : ¬ a.EntryTime < r2.EntryTime := by omega
          simp [this]

/-- Under `OpenIsLatest`, the last record of a vehicle with an open session is
that open session. -/
theorem GetLast_of_open (st : Store) (hlat : OpenIsLatest st) (r : ParkingRecord)
    (hr : r ∈ st.records) (ho : r.IsParked = true) :
    GetLastParkingRecordByVehicleID st r.VehicleID = some r := by
  unfold GetLastParkingRecordByVehicleID
  apply latestByEntryTime_of_strict_max
  · simp [List.mem_filter, hr]
  · intro r' hr'
    simp only [List.mem_filter, beq_iff_eq] at hr'
    exact hlat r hr ho r' hr'.1 hr'.2

/-- Under `OpenIsLatest`, a vehicle whose last record is closed has no open
session. -/
theorem no_open_of_last_closed (st : Store) (hlat : OpenIsLatest st) (v : Nat)
    (last : ParkingRecord) (hlast : GetLastParkingRecordByVehicleID st v = some last)
    (hclosed : last.IsParked = false) :
    ∀ r ∈ st.records, r.VehicleID = v → r.IsParked = false := by
  intro r hr hv
  by_contra ho
  have ho' : r.IsParked = true := by simpa using ho
  have := GetLast_of_open st hlat r hr ho'
  rw [hv, hlast] at this
  simp only [Option.some.injEq] at this
  rw [this] at hclosed
  rw [hclosed] at ho'
  exact Bool.noConfusion ho'

/-! ## At most one open session per vehicle -/

theorem step_vehicle_invariant (cfg : FloorVehicleMap) (st : Store) (s : Step)
    (hone : AtMostOneOpenPerVehicle st) (hlat : OpenIsLatest st)
    (hclock : ClockAfterStore st s.now) :
    AtMostOneOpenPerVehicle (step cfg st s) ∧ OpenIsLatest (step cfg st s) := by
  rcases step_records cfg st s with e | ⟨v, sp, last, id, hlast, hclosed, _, e⟩ | ⟨x, hx, e⟩
  · constructor
    · intro w; unfold openSessionsOfVehicle; rw [e]; exact hone w
    · unfold OpenIsLatest; rw [e]; exact hlat
  · have hnone := no_open_of_last_closed st hlat v last hlast hclosed
    constructor
    · intro w
      unfold openSessionsOfVehicle
      rw [e, List.filter_append, List.length_append]
      by_cases hw : v = w
      · have hnil : st.records.filter (fun r => r.VehicleID == w && r.IsParked) = [] := by
          rw [List.filter_eq_nil_iff]
          intro r hr
          simp only [Bool.and_eq_true, beq_iff_eq, not_and, Bool.not_eq_true]
          intro hv
          exact hnone r hr (hv.trans hw.symm)
        rw [hnil]
        simp only [List.length_nil, zero_add]
        exact List.length_filter_le _ _
      · have hnew : [(⟨id, v, sp.ID, s.now, none⟩ : ParkingRecord)].filter
            (fun r => r.VehicleID == w && r.IsParked) = [] := by
          simp [hw]
        rw [hnew]
        exact hone w
    · unfold OpenIsLatest
      rw [e]
      intro r hr ho r' hr' hv
      rcases List.mem_append.1 hr with hr | hr <;> rcases List.mem_append.1 hr' with hr' | hr'
      · exact hlat r hr ho r' hr' hv
      · simp only [List.mem_singleton] at hr'
        subst hr'
        have := hnone r hr hv.symm
        rw [this] at ho
        exact Bool.noConfusion ho
      · simp only [List.mem_singleton] at hr
        subst hr
        right
        exact hclock r' hr'
      · simp only [List.mem_singleton] at hr hr'
        left; rw [hr, hr']
  · constructor
    · intro w
      unfold openSessionsOfVehicle
      rw [e]
      refine le_trans (length_filter_map_le _ _ ?_ _) (hone w)
      intro r hr
      simp only [Bool.and_eq_true, beq_iff_eq] at hr ⊢
      rw [setExitTime_VehicleID] at hr
      exact ⟨hr.1, (setExitTime_open hx hr.2).2⟩
    · unfold OpenIsLatest
      rw [e]
      intro r hr ho r' hr' hv
      obtain ⟨r0, hr0, rfl⟩ := List.mem_map.1 hr
      obtain ⟨r0', hr0', rfl⟩ := List.mem_map.1 hr'
      obtain ⟨hsame, ho0⟩ := setExitTime_open hx ho
      rw [setExitTime_VehicleID, setExitTime_VehicleID] at hv
      rw [setExitTime_EntryTime, setExitTime_EntryTime]
      rcases hlat r0 hr0 ho0 r0' hr0' hv with h | h
      · left; rw [h]
      · right; exact h

theorem step_ClockAfterStore (cfg : FloorVehicleMap) (st : Store) (s : Step) (t : Nat)
    (hclock : ClockAfterStore st t) (hlt : s.now < t) : ClockAfterStore (step cfg st s) t := by
  unfold ClockAfterStore
  rcases step_records cfg st s with e | ⟨v, sp, last, id, _, _, _, e⟩ | ⟨x, _, e⟩
  · rw [e]; exact hclock
  · rw [e]
    intro r hr
    rcases List.mem_append.1 hr with hr | hr
    · exact hclock r hr
    · simp only [List.mem_singleton] at hr
      subst hr
      exact hlt
  · rw [e]
    intro r hr
    obtain ⟨r0, hr0, rfl⟩ := List.mem_map.1 hr
    rw [setExitTime_EntryTime]
    exact hclock r0 hr0

/-- C4, amended: starting from a store in which every vehicle has at most one
open session and an open session is its vehicle's latest by entry time, after
any sequence of `ParkVehicle` and `UnparkVehicle` calls executed one at a time
whose clock readings are strictly increasing and all later than every entry time
already in the store, every vehicle still has at most one open session (and an
open session is still its vehicle's latest). -/
theorem C4_one_open_session_per_vehicle (cfg : FloorVehicleMap) (st : Store)
    (steps : List Step)
    (hone : AtMostOneOpenPerVehicle st) (hlat : OpenIsLatest st)
    (hclock : ∀ s ∈ steps, ClockAfterStore st s.now)
    (hinc : (steps.map (fun s => s.now)).Pairwise (fun a b => a < b)) :
    AtMostOneOpenPerVehicle (run cfg st steps) ∧ OpenIsLatest (run cfg st steps) := by
  unfold run
  induction steps generalizing st with
  | nil => exact ⟨hone, hlat⟩
  | cons s steps ih =>
    rw [List.foldl_cons]
    rw [List.map_cons, List.pairwise_cons] at hinc
    obtain ⟨h1, h2⟩ := step_vehicle_invariant cfg st s hone hlat
      (hclock s (List.mem_cons_self _ _))
    refine ih _ h1 h2 ?_ hinc.2
    intro s' hs'
    exact step_ClockAfterStore cfg st s s'.now (hclock s' (List.mem_cons_of_mem _ hs'))
      (hinc.1 s'.now (List.mem_map.2 ⟨s', hs', rfl⟩))

/-! ## Parking twice -/

theorem find_of_pairwise_ID (l : List ParkingSpot) (s : ParkingSpot)
    (hpk : l.Pairwise (fun a b => a.ID ≠ b.ID)) (hs : s ∈ l) :
    l.find? (fun x => x.ID == s.ID) = some s := by
  induction l with
  | nil => simp at hs
  | cons a l ih =>
    rw [List.pairwise_cons] at hpk
    rcases List.mem_cons.1 hs with h | h
    · subst h; simp
    · have hne : a.ID ≠ s.ID := hpk.1 s h
      rw [List.find?_cons_of_neg _ (by simpa using hne)]
      exact ih hpk.2 h

/-- The session just committed, entered later than every stored session, is
the last record of its vehicle. -/
theorem GetLast_CreateParkingRecord (st : Store) (v sp now : Nat)
    (hclock : ClockAfterStore st now) :
    GetLastParkingRecordByVehicleID (CreateParkingRecord st v sp now) v =
      some ⟨st.recordSeq + 1, v, sp, now, none⟩ := by
  unfold GetLastParkingRecordByVehicleID
  apply latestByEntryTime_of_strict_max
  · simp [CreateParkingRecord]
  · intro r hr
    simp only [CreateParkingRecord, List.mem_filter, List.mem_append, List.mem_singleton] at hr
    rcases hr.1 with h | h
    · right; exact hclock r h
    · left; exact h

/-- C6, amended: if `ParkVehicle(plate, c1)` succeeds with a clock reading later
than every entry time already in the store (spot ids being a primary key), an
immediately following `ParkVehicle(plate, c2)` on which storage does not fail
returns the already-parked error with the location of the spot the first call
returned, and leaves the store as the first call left it. -/
theorem C6_second_park_is_rejected (cfg : FloorVehicleMap) (db : DBFaults) (now1 now2 : Nat)
    (st st1 : Store) (plate : String) (c1 c2 : VehicleType) (s : ParkingSpot)
    (hpk : SpotPK st) (hclock : ClockAfterStore st now1)
    (hfirst : ParkVehicle cfg db now1 st plate c1 = (st1, .ok s)) :
    ParkVehicle cfg noFaults now2 st1 plate c2 =
      (st1, .error (.alreadyParked s.Floor s.Row s.Column)) := by
  obtain ⟨stm, v, last, rest, hsp, hrec, hveh, _, _, havail, hst1⟩ := ParkVehicle_ok hfirst
  have hs : s ∈ st.spots := by
    have : s ∈ GetAvailableSpots st (floorsFor cfg c1) := by
      rw [havail]; exact List.mem_cons_self _ _
    exact ((mem_GetAvailableSpots _ _ _).1 this).1
  have hclockm : ClockAfterStore stm now1 := by
    unfold ClockAfterStore; rw [hrec]; exact hclock
  have hveh1 : GetVehicleByLicensePlate st1 plate = some v := by
    rw [hst1]; exact hveh
  have hlast1 : GetLastParkingRecordByVehicleID st1 v.ID =
      some ⟨stm.recordSeq + 1, v.ID, s.ID, now1, none⟩ := by
    rw [hst1]; exact GetLast_CreateParkingRecord stm v.ID s.ID now1 hclockm
  have hspot1 : GetSpotByID st1 s.ID = some s := by
    rw [hst1]
    unfold GetSpotByID
    simp only [CreateParkingRecord]
    rw [hsp]
    exact find_of_pairwise_ID st.spots s hpk hs
  unfold ParkVehicle
  simp only [noFaults, Bool.false_eq_true, if_false, hveh1]
  unfold parkResolved
  simp only [Bool.false_eq_true, if_false, hlast1, ParkingRecord.IsParked, Option.isSome_none,
    Bool.not_false, if_true, hspot1]

/-- C6, at the example store: "A" parks at time 10 and receives (1,5,5); the
park of "A" at time 11, as a motorcycle, is rejected with that location and
changes nothing. -/
theorem C6_second_park_is_rejected_witness :
    SpotPK lowestStore ∧ ClockAfterStore lowestStore 10 ∧
    ParkVehicle lowestCfg noFaults 10 lowestStore "A" Car =
      (lowestStore1, .ok ⟨3, 1, 5, 5, true⟩) ∧
    ParkVehicle lowestCfg noFaults 11 lowestStore1 "A" Motorcycle =
      (lowestStore1, .error (.alreadyParked 1 5 5)) :=
  ⟨by decide, by decide, by decide,
    C6_second_park_is_rejected lowestCfg noFaults 10 11 lowestStore lowestStore1 "A" Car
      Motorcycle ⟨3, 1, 5, 5, true⟩ (by decide) (by decide) (by decide)⟩

/-- C6 as stated fails: in a store whose closed session of "A" carries entry
time 100, the park of "A" at time 5 returns (1,1,1) and the immediately
following park of "A" at time 6 returns (1,1,2) instead of the already-parked
error, committing a second open session. -/
theorem C6_second_park_accepted_after_future_entry :
    (ParkVehicle freshCfg noFaults 5 futureStore "A" Car).2 = .ok ⟨1, 1, 1, 1, true⟩ ∧
    (ParkVehicle freshCfg noFaults 6
      (ParkVehicle freshCfg noFaults 5 futureStore "A" Car).1 "A" Car).2 =
        .ok ⟨2, 1, 1, 2, true⟩ ∧
    (ParkVehicle freshCfg noFaults 6
      (ParkVehicle freshCfg noFaults 5 futureStore "A" Car).1 "A" Car).1.records =
        [⟨1, 1, 1, 100, some 101⟩, ⟨2, 1, 1, 5, none⟩, ⟨3, 1, 2, 6, none⟩] := by
  decide

/-! ## Sequential runs at concrete stores -/

theorem atMostOneOpenPerVehicle_iff (st : Store) :
    AtMostOneOpenPerVehicle st ↔
      ∀ r ∈ st.records, (openSessionsOfVehicle st r.VehicleID).length ≤ 1 := by
  constructor
  · intro h r _
    exact h r.VehicleID
  · intro h v
    cases hl : openSessionsOfVehicle st v with
    | nil => simp
    | cons r rs =>
      have hr : r ∈ openSessionsOfVehicle st v := by rw [hl]; exact List.mem_cons_self _ _
      unfold openSessionsOfVehicle at hr
      simp only [List.mem_filter, Bool.and_eq_true, beq_iff_eq] at hr
      have := h r hr.1
      rw [hr.2.1, hl] at this
      exact this

theorem atMostOneOpenPerSpot_iff (st : Store) :
    AtMostOneOpenPerSpot st ↔
      ∀ r ∈ st.records, (openSessionsOfSpot st r.ParkingSpotID).length ≤ 1 := by
  constructor
  · intro h r _
    exact h r.ParkingSpotID
  · intro h v
    cases hl : openSessionsOfSpot st v with
    | nil => simp
    | cons r rs =>
      have hr : r ∈ openSessionsOfSpot st v := by rw [hl]; exact List.mem_cons_self _ _
      unfold openSessionsOfSpot at hr
      simp only [List.mem_filter, Bool.and_eq_true, beq_iff_eq] at hr
      have := h r hr.1
      rw [hr.2.1, hl] at this
      exact this

/-- C4 as stated fails: the store has no open session at all, the clock
readings 5 and 6 are strictly increasing, and after the two parks of "A" the
vehicle has two open sessions, because the closed session with entry time 100
stays the vehicle's last record. -/
theorem C4_two_open_sessions_after_future_entry :
    AtMostOneOpenPerVehicle futureStore ∧ OpenIsLatest futureStore ∧
    (twoParks.map (fun s => s.now)).Pairwise (fun a b => a < b) ∧
    ¬ AtMostOneOpenPerVehicle (run freshCfg futureStore twoParks) := by
  refine ⟨(atMostOneOpenPerVehicle_iff _).2 (by decide), by decide, by decide, ?_⟩
  intro h
  exact absurd (h 1) (by decide)

/-- C4, at the example store after "A" parked at time 10: the requests of
`busySteps` come at times 11 to 14, and every vehicle ends with at most one open
session. -/
theorem C4_one_open_session_per_vehicle_witness :
    AtMostOneOpenPerVehicle lowestStore1 ∧ OpenIsLatest lowestStore1 ∧
    (∀ s ∈ busySteps, ClockAfterStore lowestStore1 s.now) ∧
    (busySteps.map (fun s => s.now)).Pairwise (fun a b => a < b) ∧
    AtMostOneOpenPerVehicle (run lowestCfg lowestStore1 busySteps) ∧
    OpenIsLatest (run lowestCfg lowestStore1 busySteps) :=
  ⟨(atMostOneOpenPerVehicle_iff _).2 (by decide), by decide, by decide, by decide,
    C4_one_open_session_per_vehicle lowestCfg lowestStore1 busySteps
      ((atMostOneOpenPerVehicle_iff _).2 (by decide)) (by decide) (by decide) (by decide)⟩

/-- C5, at the example store after "A" parked at time 10 and the requests of
`busySteps`. -/
theorem C5_one_open_session_per_spot_witness :
    AtMostOneOpenPerSpot lowestStore1 ∧
    AtMostOneOpenPerSpot (run lowestCfg lowestStore1 busySteps) :=
  ⟨(atMostOneOpenPerSpot_iff _).2 (by decide),
    C5_one_open_session_per_spot lowestCfg lowestStore1 busySteps
      ((atMostOneOpenPerSpot_iff _).2 (by decide))⟩

/-! ## Unparking -/

/-- C7 (what the code does) for a known vehicle that has never parked: the
store is the one the first park of "B1" left behind (vehicle row, no session);
`UnparkVehicle` finds no last record and stops on the nil pointer at
`lastRecord.IsParked()` instead of returning the not-parked error. -/
theorem C7_unpark_of_never_parked_dereferences_nil :
    GetVehicleByLicensePlate freshStoreB1 "B1" = some ⟨1, "B1", Car⟩ ∧
    openSessionsOfVehicle freshStoreB1 1 = [] ∧
    GetLastParkingRecordByVehicleID freshStoreB1 1 = none ∧
    UnparkVehicle noFaults 20 freshStoreB1 "B1" = (freshStoreB1, .nilDeref) := by
  decide

/-- The part of C7 the code keeps: a known vehicle whose last session is closed
gets the not-parked error, and the store is unchanged. -/
theorem UnparkVehicle_last_closed (now : Nat) (st : Store) (plate : String) (v : Vehicle)
    (last : ParkingRecord) (hv : GetVehicleByLicensePlate st plate = some v)
    (hlast : GetLastParkingRecordByVehicleID st v.ID = some last)
    (hclosed : last.IsParked = false) :
    UnparkVehicle noFaults now st plate = (st, .error (.notParked plate)) := by
  unfold UnparkVehicle
  simp [noFaults, hv, hlast, hclosed]

/-- The part of C7 the code keeps: a plate with no vehicle row gets the
not-found error, and the store is unchanged. -/
theorem UnparkVehicle_unknown_plate (now : Nat) (st : Store) (plate : String)
    (hv : GetVehicleByLicensePlate st plate = none) :
    UnparkVehicle noFaults now st plate = (st, .error (.vehicleNotFound plate)) := by
  unfold UnparkVehicle
  simp [noFaults, hv]

/-- `UnparkVehicle_last_closed` at the example store: "A" has one closed
session. -/
theorem UnparkVehicle_last_closed_witness :
    GetVehicleByLicensePlate lowestStore "A" = some ⟨1, "A", Car⟩ ∧
    GetLastParkingRecordByVehicleID lowestStore 1 = some ⟨1, 1, 1, 1, some 2⟩ ∧
    UnparkVehicle noFaults 20 lowestStore "A" = (lowestStore, .error (.notParked "A")) :=
  ⟨by decide, by decide,
    UnparkVehicle_last_closed 20 lowestStore "A" ⟨1, "A", Car⟩ ⟨1, 1, 1, 1, some 2⟩
      (by decide) (by decide) rfl⟩

/-- `UnparkVehicle_unknown_plate` at the example store: no vehicle has plate "Z". -/
theorem UnparkVehicle_unknown_plate_witness :
    GetVehicleByLicensePlate lowestStore "Z" = none ∧
    UnparkVehicle noFaults 20 lowestStore "Z" = (lowestStore, .error (.vehicleNotFound "Z")) :=
  ⟨by decide, UnparkVehicle_unknown_plate 20 lowestStore "Z" (by decide)⟩

/-! ## Searching -/

/-- C8 (what the code does): whenever `SearchVehicle` returns, its boolean is
the negation of `IsParked` of the vehicle's last record: true exactly when that
session is closed. -/
theorem C8_search_flag_is_negated (db : DBFaults) (st : Store) (plate : String)
    (sp : Option ParkingSpot) (b : Bool)
    (h : SearchVehicle db st plate = .ok (sp, b)) :
    ∃ v last, GetVehicleByLicensePlate st plate = some v ∧
      GetLastParkingRecordByVehicleID st v.ID = some last ∧
      sp = GetSpotByID st last.ParkingSpotID ∧ (b = true ↔ last.IsParked = false) := by
  unfold SearchVehicle at h
  split at h
  · simp at h
  · split at h
    · simp at h
    · rename_i v hv
      split at h
      · simp at h
      · split at h
        · simp at h
        · rename_i last hlast
          split at h
          · simp at h
          · simp only [Outcome.ok.injEq, Prod.mk.injEq] at h
            refine ⟨v, last, hv, hlast, h.1.symm, ?_⟩
            rw [← h.2]
            simp

/-- C8 on a round trip: "A" parks at time 10 on (1,5,5); the search then
returns that spot with the flag false; "A" unparks at time 20; the search then
returns the same spot with the flag true. -/
theorem C8_search_flag_is_negated_witness :
    ParkVehicle lowestCfg noFaults 10 lowestStore "A" Car =
      (lowestStore1, .ok ⟨3, 1, 5, 5, true⟩) ∧
    SearchVehicle noFaults lowestStore1 "A" = .ok (some ⟨3, 1, 5, 5, true⟩, false) ∧
    (UnparkVehicle noFaults 20 lowestStore1 "A").2 = .ok () ∧
    SearchVehicle noFaults (UnparkVehicle noFaults 20 lowestStore1 "A").1 "A" =
      .ok (some ⟨3, 1, 5, 5, true⟩, true) ∧
    ∃ v last, GetVehicleByLicensePlate lowestStore1 "A" = some v ∧
      GetLastParkingRecordByVehicleID lowestStore1 v.ID = some last ∧
      some ⟨3, 1, 5, 5, true⟩ = GetSpotByID lowestStore1 last.ParkingSpotID ∧
      (false = true ↔ last.IsParked = false) :=
  ⟨by decide, by decide, by decide, by decide,
    C8_search_flag_is_negated noFaults lowestStore1 "A" (some ⟨3, 1, 5, 5, true⟩) false
      (by decide)⟩

/-! ## Listing the free spots -/

/-- C9: when the storage query does not fail, `GetAllAvailableSpots` returns a
list, ordered by (floor, row, column), whose members are exactly the spots of
the store that are active and referred to by no open session, on any floor. -/
theorem C9_available_spots_exact (db : DBFaults) (st : Store)
    (hdb : db.getAvailableSpots = false) :
    ∃ l, GetAllAvailableSpots db st = .ok l ∧ l.Sorted spotLE ∧
      ∀ sp, sp ∈ l ↔ sp ∈ st.spots ∧ sp.IsActive = true ∧ Unoccupied st sp := by
  refine ⟨GetAvailableSpots st [], ?_, ?_, ?_⟩
  · unfold GetAllAvailableSpots
    simp [hdb]
  · unfold GetAvailableSpots
    exact List.sorted_insertionSort spotLE _
  · intro sp
    rw [mem_GetAvailableSpots]
    simp

/-- C9 at a store with one taken, one free and one inactive spot: the list is
the free spot alone. -/
theorem C9_available_spots_exact_witness :
    noFaults.getAvailableSpots = false ∧
    GetAllAvailableSpots noFaults mixedStore = .ok [⟨2, 1, 1, 2, true⟩] ∧
    ∃ l, GetAllAvailableSpots noFaults mixedStore = .ok l ∧ l.Sorted spotLE ∧
      ∀ sp, sp ∈ l ↔ sp ∈ mixedStore.spots ∧ sp.IsActive = true ∧ Unoccupied mixedStore sp :=
  ⟨rfl, by decide, C9_available_spots_exact noFaults mixedStore rfl⟩

/-! ## Failure atomicity of park -/

/-- C10, amended: in a store that satisfies the foreign key of
`parking_records.vehicle_id` and whose vehicle ids came from the sequence,
whenever `ParkVehicle` returns an error, no spot and no session has changed, and
the store after the call is the store before it, with one exception: when the
plate had no vehicle row and the error is the storage failure of the last-record
lookup, the vehicle row inserted at the start of the call stays. So every other
error (already parked, no available spot, a storage failure of the session
insert, of the spot lookup, of the spot query, of the vehicle lookup or of the
vehicle insert), and every error for a plate already on record, leaves the whole
store as it was. -/
theorem C10_park_error_keeps_at_most_new_vehicle (cfg : FloorVehicleMap) (db : DBFaults)
    (now : Nat) (st st' : Store) (plate : String) (vt : VehicleType) (e : ServiceError)
    (hfk : VehicleFK st) (hseq : VehicleSeqAhead st)
    (h : ParkVehicle cfg db now st plate vt = (st', .error e)) :
    (st' = st ∨
      (e = .gettingLastRecord ∧ GetVehicleByLicensePlate st plate = none ∧
        st' = (CreateVehicle st plate vt).1)) ∧
    (e ≠ .gettingLastRecord → st' = st) ∧
    (GetVehicleByLicensePlate st plate ≠ none → st' = st) ∧
    st'.spots = st.spots ∧ st'.records = st.records := by
  have key : st' = st ∨
      (e = .gettingLastRecord ∧ GetVehicleByLicensePlate st plate = none ∧
        st' = (CreateVehicle st plate vt).1) := by
    rcases ParkVehicle_cases cfg db now st plate vt with h1 | ⟨v, _, h1⟩ | ⟨_, h1⟩ | ⟨hv, h1⟩
    · rw [h1] at h
      exact Or.inl (congrArg Prod.fst h).symm
    · rw [h1] at h
      rcases parkResolved_store cfg db now st v vt with ⟨h2, _⟩ | ⟨_, s, _, _, _, _, h2⟩
      · left; rw [← h2, h]
      · rw [h2] at h
        simp at h
    · rw [h1] at h
      exact Or.inl (congrArg Prod.fst h).symm
    · rw [h1, parkResolved_no_record _ _ _ _ _ _ (GetLast_created st plate vt hfk hseq)] at h
      have h2 := congrArg Prod.snd h
      simp only at h2
      split at h2
      · simp only [Outcome.error.injEq] at h2
        exact Or.inr ⟨h2.symm, hv, (congrArg Prod.fst h).symm⟩
      · simp at h2
  refine ⟨key, ?_, ?_, ?_, ?_⟩
  · intro hkind
    rcases key with h1 | ⟨h1, _, _⟩
    · exact h1
    · exact absurd h1 hkind
  · intro hknown
    rcases key with h1 | ⟨_, h1, _⟩
    · exact h1
    · exact absurd h1 hknown
  · rcases key with h1 | ⟨_, _, h1⟩
    · rw [h1]
    · rw [h1]; rfl
  · rcases key with h1 | ⟨_, _, h1⟩
    · rw [h1]
    · rw [h1]; rfl

/-- C10, amended, at two calls. On a freshly provisioned lot the park of the
unseen plate "B1" during which the last-record lookup fails returns that error
and leaves the vehicle row of "B1" and nothing else. At a full lot the park of
the known car "A" fails with the no-available-spots error and the store is
unchanged. -/
theorem C10_park_error_keeps_at_most_new_vehicle_witness :
    (VehicleFK freshStore ∧ VehicleSeqAhead freshStore ∧
      GetVehicleByLicensePlate freshStore "B1" = none ∧
      ParkVehicle freshCfg lookupFails 10 freshStore "B1" Car =
        (freshStoreB1, .error .gettingLastRecord) ∧
      (freshStoreB1 = freshStore ∨
        ((ServiceError.gettingLastRecord = ServiceError.gettingLastRecord) ∧
          GetVehicleByLicensePlate freshStore "B1" = none ∧
          freshStoreB1 = (CreateVehicle freshStore "B1" Car).1)) ∧
      freshStoreB1.records = freshStore.records) ∧
    (VehicleFK fullStore ∧ VehicleSeqAhead fullStore ∧
      (ParkVehicle freshCfg noFaults 10 fullStore "A" Car).2 = .error .noAvailableSpots ∧
      (ParkVehicle freshCfg noFaults 10 fullStore "A" Car).1 = fullStore) :=
  ⟨⟨by decide, by decide, by decide, by decide,
      (C10_park_error_keeps_at_most_new_vehicle freshCfg lookupFails 10 freshStore freshStoreB1
        "B1" Car .gettingLastRecord (by decide) (by decide) (by decide)).1,
      (C10_park_error_keeps_at_most_new_vehicle freshCfg lookupFails 10 freshStore freshStoreB1
        "B1" Car .gettingLastRecord (by decide) (by decide) (by decide)).2.2.2.2⟩,
    ⟨by decide, by decide, by decide,
      (C10_park_error_keeps_at_most_new_vehicle freshCfg noFaults 10 fullStore
        (ParkVehicle freshCfg noFaults 10 fullStore "A" Car).1 "A" Car .noAvailableSpots
        (by decide) (by decide) (by decide)).2.1 (by decide)⟩⟩

/-- C10 as stated fails: on a freshly provisioned lot, which satisfies the
foreign key and the sequence condition, the park of the unseen plate "B1" during
which the last-record lookup fails returns an error, and the store after the
call holds the vehicle row of "B1" that the store before it did not. -/
theorem C10_failed_lookup_keeps_new_vehicle :
    VehicleFK freshStore ∧ VehicleSeqAhead freshStore ∧
    ParkVehicle freshCfg lookupFails 10 freshStore "B1" Car =
      (freshStoreB1, .error .gettingLastRecord) ∧
    freshStore.vehicles = [] ∧ freshStoreB1.vehicles = [⟨1, "B1", Car⟩] ∧
    freshStoreB1 ≠ freshStore := by
  decide

/-! ## A known plate arriving with another class -/

theorem ParkVehicle_known (cfg : FloorVehicleMap) (db : DBFaults) (now : Nat) (st : Store)
    (plate : String) (vt : VehicleType) (v : Vehicle)
    (hv : GetVehicleByLicensePlate st plate = some v) :
    ParkVehicle cfg db now st plate vt =
      if db.getVehicle then (st, .error .gettingVehicle)
      else parkResolved cfg db now st v vt := by
  unfold ParkVehicle
  rw [hv]

theorem parkResolved_vehicles (cfg : FloorVehicleMap) (db : DBFaults) (now : Nat) (st : Store)
    (v : Vehicle) (vt : VehicleType) :
    (parkResolved cfg db now st v vt).1.vehicles = st.vehicles ∧
      (parkResolved cfg db now st v vt).1.vehicleSeq = st.vehicleSeq := by
  rcases parkResolved_store cfg db now st v vt with ⟨h, _⟩ | ⟨_, s, _, _, _, _, h⟩
  · rw [h]; exact ⟨rfl, rfl⟩
  · rw [h]; exact ⟨rfl, rfl⟩

/-- C11, amended: when the plate is already on record, `ParkVehicle` inserts no
vehicle row and leaves the recorded vehicle, its class included, as it was; the
class supplied in the call is not ignored, it alone selects the floors: a spot
returned lies on a floor mapped to the supplied class whenever some floor is
mapped to it, and the session committed is that of the recorded vehicle. -/
theorem C11_known_plate_parks_by_supplied_class (cfg : FloorVehicleMap) (db : DBFaults)
    (now : Nat) (st : Store) (plate : String) (vt : VehicleType) (v : Vehicle)
    (hv : GetVehicleByLicensePlate st plate = some v) :
    (ParkVehicle cfg db now st plate vt).1.vehicles = st.vehicles ∧
    (ParkVehicle cfg db now st plate vt).1.vehicleSeq = st.vehicleSeq ∧
    GetVehicleByLicensePlate (ParkVehicle cfg db now st plate vt).1 plate = some v ∧
    ∀ s, (ParkVehicle cfg db now st plate vt).2 = .ok s →
      (ParkVehicle cfg db now st plate vt).1 = CreateParkingRecord st v.ID s.ID now ∧
      ((∃ f, (f, vt) ∈ cfg) → (s.Floor, vt) ∈ cfg) := by
  have hveh : (ParkVehicle cfg db now st plate vt).1.vehicles = st.vehicles ∧
      (ParkVehicle cfg db now st plate vt).1.vehicleSeq = st.vehicleSeq := by
    rw [ParkVehicle_known cfg db now st plate vt v hv]
    split
    · exact ⟨rfl, rfl⟩
    · exact parkResolved_vehicles cfg db now st v vt
  refine ⟨hveh.1, hveh.2, ?_, ?_⟩
  · unfold GetVehicleByLicensePlate at hv ⊢
    rw [hveh.1]
    exact hv
  · intro s hs
    have hres : parkResolved cfg db now st v vt =
        ((ParkVehicle cfg db now st plate vt).1, .ok s) := by
      have h := ParkVehicle_known cfg db now st plate vt v hv
      by_cases hg : db.getVehicle = true
      · rw [h, if_pos hg] at hs
        simp at hs
      · rw [if_neg hg] at h
        rw [← h, ← hs]
    obtain ⟨last, rest, _, _, havail, hst⟩ := parkResolved_ok hres
    refine ⟨hst, ?_⟩
    rintro ⟨f, hf⟩
    have hne : floorsFor cfg vt ≠ [] := by
      intro h0
      have := (mem_floorsFor cfg vt f).2 hf
      rw [h0] at this
      exact List.not_mem_nil _ this
    have hmem : s ∈ GetAvailableSpots st (floorsFor cfg vt) := by
      rw [havail]; exact List.mem_cons_self _ _
    rw [mem_GetAvailableSpots] at hmem
    rcases hmem.2.2.2 with h0 | h0
    · exact absurd h0 hne
    · exact (mem_floorsFor cfg vt s.Floor).1 h0

/-- C11 at the store where "A" is on record as a car: the call with class
motorcycle leaves the vehicle row alone and returns the spot on floor 2, a floor
mapped to motorcycles. -/
theorem C11_known_plate_parks_by_supplied_class_witness :
    GetVehicleByLicensePlate classStore "A" = some ⟨1, "A", Car⟩ ∧
    (ParkVehicle classCfg noFaults 10 classStore "A" Motorcycle).1.vehicles =
      [⟨1, "A", Car⟩] ∧
    (ParkVehicle classCfg noFaults 10 classStore "A" Motorcycle).2 = .ok ⟨2, 2, 1, 1, true⟩ ∧
    ((2 : Int), Motorcycle) ∈ classCfg :=
  ⟨by decide,
    (C11_known_plate_parks_by_supplied_class classCfg noFaults 10 classStore "A" Motorcycle
      ⟨1, "A", Car⟩ (by decide)).1,
    by decide,
    ((C11_known_plate_parks_by_supplied_class classCfg noFaults 10 classStore "A" Motorcycle
      ⟨1, "A", Car⟩ (by decide)).2.2.2 ⟨2, 2, 1, 1, true⟩ (by decide)).2 ⟨2, by decide⟩⟩

/-- C11 as stated fails: "A" is on record as a car, the free spot (1,1,1) is on
the car floor, and the call with class motorcycle returns (2,1,1) on floor 2,
which is mapped to motorcycles and not to cars. -/
theorem C11_spot_follows_supplied_class :
    GetVehicleByLicensePlate classStore "A" = some ⟨1, "A", Car⟩ ∧
    (⟨1, 1, 1, 1, true⟩ : ParkingSpot) ∈ GetAvailableSpots classStore (floorsFor classCfg Car) ∧
    (ParkVehicle classCfg noFaults 10 classStore "A" Motorcycle).2 = .ok ⟨2, 2, 1, 1, true⟩ ∧
    ((2 : Int), Car) ∉ classCfg ∧ ((2 : Int), Motorcycle) ∈ classCfg := by
  decide

/-! ## Committing an exit -/

theorem setExitTime_same_ID (record r : ParkingRecord) (h : r.ID = record.ID) :
    setExitTime record r = { r with ExitTime := record.ExitTime } := by
  unfold setExitTime
  rw [if_pos h]

theorem setExitTime_other_ID (record r : ParkingRecord) (h : r.ID ≠ record.ID) :
    setExitTime record r = r := by
  unfold setExitTime
  rw [if_neg h]

/-- C12, amended: `UpdateParkingRecord` has no invalid-state check. When the
statement does not fail in storage it returns no error and sets the exit time of
every row with the given id to the given value, whether that row was open or
already closed, leaving rows with another id as they were; it returns an error,
and writes nothing, only when storage fails. The only guard is the caller's:
`UnparkVehicle` succeeds only when the vehicle's last record has no exit time,
and then the store is exactly the result of that update. -/
theorem C12_update_has_no_state_check (st : Store) (record : ParkingRecord) :
    execUpdateParkingRecord false st record = (UpdateParkingRecord st record, false) ∧
    execUpdateParkingRecord true st record = (st, true) ∧
    (∀ r ∈ st.records, r.ID = record.ID →
      { r with ExitTime := record.ExitTime } ∈ (UpdateParkingRecord st record).records) ∧
    (∀ r ∈ st.records, r.ID ≠ record.ID → r ∈ (UpdateParkingRecord st record).records) ∧
    (∀ r ∈ (UpdateParkingRecord st record).records, r.ID = record.ID →
      r.ExitTime = record.ExitTime) ∧
    ∀ (db : DBFaults) (now : Nat) (plate : String) (st' : Store),
      UnparkVehicle db now st plate = (st', .ok ()) →
        ∃ v last, GetVehicleByLicensePlate st plate = some v ∧
          GetLastParkingRecordByVehicleID st v.ID = some last ∧ last.ExitTime = none ∧
          st' = UpdateParkingRecord st { last with ExitTime := some now } := by
  refine ⟨rfl, rfl, ?_, ?_, ?_, ?_⟩
  · intro r hr hid
    unfold UpdateParkingRecord
    simp only [List.mem_map]
    exact ⟨r, hr, setExitTime_same_ID record r hid⟩
  · intro r hr hid
    unfold UpdateParkingRecord
    simp only [List.mem_map]
    exact ⟨r, hr, setExitTime_other_ID record r hid⟩
  · intro r hr hid
    unfold UpdateParkingRecord at hr
    simp only [List.mem_map] at hr
    obtain ⟨r0, _, rfl⟩ := hr
    unfold setExitTime at hid ⊢
    split
    · rfl
    · rename_i hne
      rw [if_neg hne] at hid
      exact absurd hid hne
  · intro db now plate st' h
    rcases UnparkVehicle_store db now st plate with ⟨_, hno⟩ | ⟨v, last, hv, hlast, hopen, hres⟩
    · exact absurd (congrArg Prod.snd h) hno
    · refine ⟨v, last, hv, hlast, ?_, ?_⟩
      · unfold ParkingRecord.IsParked at hopen
        cases he : last.ExitTime with
        | none => rfl
        | some t => rw [he] at hopen; simp at hopen
      · rw [hres] at h
        exact (congrArg Prod.fst h).symm

/-- C12 as stated fails: the session with id 1 is closed with exit time 101;
the update with exit time 500 returns no error and the stored exit time
becomes 500. -/
theorem C12_update_overwrites_closed_session :
    futureStore.records = [⟨1, 1, 1, 100, some 101⟩] ∧
    (execUpdateParkingRecord false futureStore ⟨1, 1, 1, 100, some 500⟩).2 = false ∧
    (execUpdateParkingRecord false futureStore ⟨1, 1, 1, 100, some 500⟩).1.records =
      [⟨1, 1, 1, 100, some 500⟩] := by
  decide

/-! ## The double-parking check and the order of entry times -/

/-- C14: there is a sequential run of park, unpark, park, park on the plate "A",
with a free car spot before every call, in which the first park enters at 200
and the third call at 150; after the third call the vehicle's last record by entry time
is the closed session of the first park, the fourth call returns a spot instead
of the already-parked error, and the vehicle ends with two open sessions, on
spots 1 and 2. -/
theorem C14_clock_regress_double_parks :
    ∃ (st1 st2 st3 st4 : Store) (s1 s3 s4 : ParkingSpot),
      ParkVehicle freshCfg noFaults 200 futureStore "A" Car = (st1, .ok s1) ∧
      UnparkVehicle noFaults 210 st1 "A" = (st2, .ok ()) ∧
      ParkVehicle freshCfg noFaults 150 st2 "A" Car = (st3, .ok s3) ∧
      GetLastParkingRecordByVehicleID st3 1 = some ⟨2, 1, s1.ID, 200, some 210⟩ ∧
      ParkVehicle freshCfg noFaults 160 st3 "A" Car = (st4, .ok s4) ∧
      s3.ID ≠ s4.ID ∧
      openSessionsOfVehicle st4 1 = [⟨3, 1, s3.ID, 150, none⟩, ⟨4, 1, s4.ID, 160, none⟩] ∧
      st4 = run freshCfg futureStore regressSteps ∧
      (∀ st ∈ [futureStore, st1, st2, st3],
        GetAvailableSpots st (floorsFor freshCfg Car) ≠ []) :=
  ⟨(ParkVehicle freshCfg noFaults 200 futureStore "A" Car).1,
    (run freshCfg futureStore (regressSteps.take 2)),
    (run freshCfg futureStore (regressSteps.take 3)),
    (run freshCfg futureStore regressSteps),
    ⟨1, 1, 1, 1, true⟩, ⟨1, 1, 1, 1, true⟩, ⟨2, 1, 1, 2, true⟩,
    by decide, by decide, by decide, by decide, by decide, by decide, by decide, rfl, by decide⟩

/-! ## Filling the free spots one park at a time -/

theorem eq_of_pairwise_ID {α : Type} (key : α → Nat) (l : List α)
    (hpk : l.Pairwise (fun a b => key a ≠ key b)) (a b : α) (ha : a ∈ l) (hb : b ∈ l)
    (h : key a = key b) : a = b := by
  induction l with
  | nil => simp at ha
  | cons x l ih =>
    rw [List.pairwise_cons] at hpk
    rcases List.mem_cons.1 ha with h1 | h1
    · rcases List.mem_cons.1 hb with h2 | h2
      · rw [h1, h2]
      · rw [h1] at h
        exact absurd h (hpk.1 b h2)
    · rcases List.mem_cons.1 hb with h2 | h2
      · rw [h2] at h
        exact absurd h.symm (hpk.1 a h1)
      · exact ih hpk.2 h1 h2

/-- A park of a known, unparked vehicle on which storage does not fail commits
a session on the first spot of the catalog query and returns it. -/
theorem ParkVehicle_known_unparked (cfg : FloorVehicleMap) (now : Nat) (st : Store)
    (plate : String) (vt : VehicleType) (v : Vehicle) (last : ParkingRecord)
    (hv : GetVehicleByLicensePlate st plate = some v)
    (hlast : GetLastParkingRecordByVehicleID st v.ID = some last)
    (hclosed : last.IsParked = false) :
    ParkVehicle cfg noFaults now st plate vt =
      match GetAvailableSpots st (floorsFor cfg vt) with
      | [] => (st, .error .noAvailableSpots)
      | s :: _ => (CreateParkingRecord st v.ID s.ID now, .ok s) := by
  rw [ParkVehicle_known cfg noFaults now st plate vt v hv]
  unfold parkResolved
  simp only [noFaults, Bool.false_eq_true, if_false, hlast, hclosed]

theorem openSpotIDs_CreateParkingRecord (st : Store) (v sp now : Nat) :
    openSpotIDs (CreateParkingRecord st v sp now) = openSpotIDs st ++ [sp] := by
  simp [openSpotIDs, CreateParkingRecord, List.filter_append]

theorem availableRow_CreateParkingRecord (st : Store) (v sp now : Nat) (floors : List Int)
    (x : ParkingSpot) :
    availableRow (CreateParkingRecord st v sp now) floors x =
      (availableRow st floors x && !(x.ID == sp)) := by
  unfold availableRow
  rw [openSpotIDs_CreateParkingRecord]
  by_cases h1 : x.ID = sp <;> by_cases h2 : x.ID ∈ openSpotIDs st <;>
    cases x.IsActive <;> simp [h1, h2]

theorem length_filter_exclude_ID (p : ParkingSpot → Bool) (l : List ParkingSpot)
    (s : ParkingSpot) (hpk : l.Pairwise (fun a b => a.ID ≠ b.ID)) (hs : s ∈ l)
    (hp : p s = true) :
    (l.filter (fun x => p x && !(x.ID == s.ID))).length + 1 = (l.filter p).length := by
  induction l with
  | nil => simp at hs
  | cons a l ih =>
    rw [List.pairwise_cons] at hpk
    rcases List.mem_cons.1 hs with h | h
    · subst h
      have hrest : l.filter (fun x => p x && !(x.ID == s.ID)) = l.filter p := by
        apply List.filter_congr
        intro x hx
        have : s.ID ≠ x.ID := hpk.1 x hx
        have hne : (x.ID == s.ID) = false := by simpa using fun h => this h.symm
        simp [hne]
      rw [List.filter_cons_of_neg (by simp), List.filter_cons_of_pos hp, hrest]
      simp
    · have hne : a.ID ≠ s.ID := hpk.1 s h
      have hb : (a.ID == s.ID) = false := by simpa using hne
      by_cases hpa : p a = true
      · rw [List.filter_cons_of_pos (by simp [hpa, hb]), List.filter_cons_of_pos hpa]
        simp only [List.length_cons]
        have := ih hpk.2 h
        omega
      · rw [List.filter_cons_of_neg (by simp [hpa]), List.filter_cons_of_neg hpa]
        exact ih hpk.2 h

/-- After a session is committed on a spot the catalog query returned, the
query returns the same spots except that one; there is one fewer. -/
theorem GetAvailableSpots_CreateParkingRecord (st : Store) (v now : Nat) (floors : List Int)
    (s : ParkingSpot) (hpk : SpotPK st) (hs : s ∈ GetAvailableSpots st floors) :
    (∀ x, x ∈ GetAvailableSpots (CreateParkingRecord st v s.ID now) floors ↔
      x ∈ GetAvailableSpots st floors ∧ x.ID ≠ s.ID) ∧
    (GetAvailableSpots (CreateParkingRecord st v s.ID now) floors).length + 1 =
      (GetAvailableSpots st floors).length := by
  have hfun : availableRow (CreateParkingRecord st v s.ID now) floors =
      fun x => availableRow st floors x && !(x.ID == s.ID) := by
    funext x
    exact availableRow_CreateParkingRecord st v s.ID now floors x
  have hs' : s ∈ st.spots ∧ availableRow st floors s = true := by
    unfold GetAvailableSpots at hs
    rw [List.mem_insertionSort, List.mem_filter] at hs
    exact hs
  constructor
  · intro x
    unfold GetAvailableSpots
    rw [List.mem_insertionSort, List.mem_insertionSort, List.mem_filter, List.mem_filter, hfun]
    simp [CreateParkingRecord, and_assoc]
  · unfold GetAvailableSpots
    rw [List.length_insertionSort, List.length_insertionSort, hfun]
    exact length_filter_exclude_ID _ st.spots s hpk hs'.1 hs'.2

/-- A session committed for one vehicle leaves every other known, unparked
plate known and unparked. -/
theorem KnownUnparked_CreateParkingRecord (st : Store) (v : Vehicle) (sp now : Nat)
    (p q : String) (hvpk : VehiclePK st) (hv : GetVehicleByLicensePlate st p = some v)
    (hq : KnownUnparked st q) (hpq : q ≠ p) :
    KnownUnparked (CreateParkingRecord st v.ID sp now) q := by
  obtain ⟨w, last, hw, hlast, hclosed⟩ := hq
  have hne : v.ID ≠ w.ID := by
    intro hid
    unfold GetVehicleByLicensePlate at hv hw
    have hvw : v = w := eq_of_pairwise_ID Vehicle.ID st.vehicles hvpk v w
      (List.mem_of_find?_eq_some hv) (List.mem_of_find?_eq_some hw) hid
    have h1 := List.find?_some hv
    have h2 := List.find?_some hw
    simp only [beq_iff_eq] at h1 h2
    rw [hvw] at h1
    exact hpq (h2.symm.trans h1)
  refine ⟨w, last, hw, ?_, hclosed⟩
  rw [← hlast]
  unfold GetLastParkingRecordByVehicleID
  simp [CreateParkingRecord, List.filter_append, hne]

theorem parkEach_fills (cfg : FloorVehicleMap) (vt : VehicleType) (reqs : List (String × Nat)) :
    ∀ st : Store, SpotPK st → VehiclePK st → (reqs.map Prod.fst).Nodup →
      (∀ q ∈ reqs, KnownUnparked st q.1) →
      reqs.length ≤ (GetAvailableSpots st (floorsFor cfg vt)).length →
      ∃ spots : List ParkingSpot,
        (parkEach cfg vt st reqs).2 = spots.map .ok ∧ spots.length = reqs.length ∧
        (spots.map (fun s => s.ID)).Nodup ∧
        (∀ s ∈ spots, s ∈ GetAvailableSpots st (floorsFor cfg vt)) ∧
        (GetAvailableSpots (parkEach cfg vt st reqs).1 (floorsFor cfg vt)).length + reqs.length =
          (GetAvailableSpots st (floorsFor cfg vt)).length ∧
        ∀ q, q ∉ reqs.map Prod.fst → KnownUnparked st q →
          KnownUnparked (parkEach cfg vt st reqs).1 q := by
  induction reqs with
  | nil =>
    intro st _ _ _ _ _
    exact ⟨[], rfl, rfl, by simp, by simp, by simp [parkEach], fun q _ h => h⟩
  | cons r rest ih =>
    intro st hspk hvpk hnodup hknown hlen
    obtain ⟨p, t⟩ := r
    obtain ⟨v, last, hv, hlast, hclosed⟩ := hknown (p, t) (List.mem_cons_self _ _)
    rw [List.map_cons, List.nodup_cons] at hnodup
    cases havail : GetAvailableSpots st (floorsFor cfg vt) with
    | nil => rw [havail] at hlen; simp at hlen
    | cons s tl =>
      have hpark : ParkVehicle cfg noFaults t st p vt =
          (CreateParkingRecord st v.ID s.ID t, .ok s) := by
        rw [ParkVehicle_known_unparked cfg t st p vt v last hv hlast hclosed, havail]
      have hs : s ∈ GetAvailableSpots st (floorsFor cfg vt) := by
        rw [havail]; exact List.mem_cons_self _ _
      obtain ⟨hmem, hlen1⟩ :=
        GetAvailableSpots_CreateParkingRecord st v.ID t (floorsFor cfg vt) s hspk hs
      have hknown1 : ∀ q ∈ rest, KnownUnparked (CreateParkingRecord st v.ID s.ID t) q.1 := by
        intro q hq
        apply KnownUnparked_CreateParkingRecord st v s.ID t p q.1 hvpk hv
          (hknown q (List.mem_cons_of_mem _ hq))
        intro he
        have hin : q.1 ∈ rest.map Prod.fst := List.mem_map_of_mem Prod.fst hq
        rw [he] at hin
        exact hnodup.1 hin
      have hlen' : rest.length ≤
          (GetAvailableSpots (CreateParkingRecord st v.ID s.ID t) (floorsFor cfg vt)).length := by
        rw [havail] at hlen1
        simp only [List.length_cons] at hlen hlen1
        rw [havail] at hlen
        simp only [List.length_cons] at hlen
        omega
      obtain ⟨spots, hout, hcount, hdistinct, hsub, hleft, hframe⟩ :=
        ih (CreateParkingRecord st v.ID s.ID t) hspk hvpk hnodup.2 hknown1 hlen'
      have hrun : parkEach cfg vt st ((p, t) :: rest) =
          ((parkEach cfg vt (CreateParkingRecord st v.ID s.ID t) rest).1,
            .ok s :: (parkEach cfg vt (CreateParkingRecord st v.ID s.ID t) rest).2) := by
        simp only [parkEach, hpark]
      rw [hrun]
      refine ⟨s :: spots, ?_, ?_, ?_, ?_, ?_, ?_⟩
      · simp only [List.map_cons, hout]
      · simp only [List.length_cons, hcount]
      · rw [List.map_cons, List.nodup_cons]
        refine ⟨?_, hdistinct⟩
        intro hin
        obtain ⟨x, hx, hxid⟩ := List.mem_map.1 hin
        exact ((hmem x).1 (hsub x hx)).2 hxid
      · intro x hx
        rcases List.mem_cons.1 hx with h | h
        · rw [h]; rw [havail] at hs; exact hs
        · have := ((hmem x).1 (hsub x h)).1
          rw [havail] at this
          exact this
      · simp only [List.length_cons]
        rw [havail] at hlen1
        simp only [List.length_cons] at hlen1
        omega
      · intro q hq hkq
        rw [List.map_cons, List.mem_cons, not_or] at hq
        exact hframe q hq.2
          (KnownUnparked_CreateParkingRecord st v s.ID t p q hvpk hv hkq hq.1)

/-- Sequential counterpart of the N-parks property: in a store with unique spot
and vehicle ids, when N distinct plates, each on record with its last session
closed, are parked one after the other with the same class, storage answering,
and the catalog query for that class returns exactly N spots at the start, then
every call returns a spot, the N spots are pairwise distinct, and a following
park of any other known, unparked plate with that class fails with the
no-available-spots error and changes nothing. -/
theorem sequential_parks_fill_free_spots (cfg : FloorVehicleMap) (vt : VehicleType)
    (st : Store) (reqs : List (String × Nat)) (hspk : SpotPK st) (hvpk : VehiclePK st)
    (hnodup : (reqs.map Prod.fst).Nodup) (hknown : ∀ q ∈ reqs, KnownUnparked st q.1)
    (hN : reqs.length = (GetAvailableSpots st (floorsFor cfg vt)).length) :
    ∃ spots : List ParkingSpot,
      (parkEach cfg vt st reqs).2 = spots.map .ok ∧ spots.length = reqs.length ∧
      (spots.map (fun s => s.ID)).Nodup ∧
      ∀ (q : String) (now : Nat), q ∉ reqs.map Prod.fst → KnownUnparked st q →
        ParkVehicle cfg noFaults now (parkEach cfg vt st reqs).1 q vt =
          ((parkEach cfg vt st reqs).1, .error .noAvailableSpots) := by
  obtain ⟨spots, hout, hcount, hdistinct, _, hleft, hframe⟩ :=
    parkEach_fills cfg vt reqs st hspk hvpk hnodup hknown (le_of_eq hN)
  refine ⟨spots, hout, hcount, hdistinct, ?_⟩
  intro q now hq hkq
  obtain ⟨v, last, hv, hlast, hclosed⟩ := hframe q hq hkq
  have hnil : GetAvailableSpots (parkEach cfg vt st reqs).1 (floorsFor cfg vt) = [] := by
    apply List.eq_nil_of_length_eq_zero
    omega
  rw [ParkVehicle_known_unparked cfg now _ q vt v last hv hlast hclosed, hnil]

/-- `sequential_parks_fill_free_spots` with two free car spots: "A" and "B"
receive (2,1,1) and (2,1,3), and the park of "C" that follows fails with the
no-available-spots error. -/
theorem sequential_parks_fill_free_spots_witness :
    SpotPK twoSpotStore ∧ VehiclePK twoSpotStore ∧
    (GetAvailableSpots twoSpotStore (floorsFor lowestCfg Car)).length = 2 ∧
    (parkEach lowestCfg Car twoSpotStore [("A", 10), ("B", 11)]).2 =
      [.ok ⟨2, 2, 1, 1, true⟩, .ok ⟨1, 2, 1, 3, true⟩] ∧
    (ParkVehicle lowestCfg noFaults 12
      (parkEach lowestCfg Car twoSpotStore [("A", 10), ("B", 11)]).1 "C" Car).2 =
        .error .noAvailableSpots ∧
    ∃ spots : List ParkingSpot,
      (parkEach lowestCfg Car twoSpotStore [("A", 10), ("B", 11)]).2 = spots.map .ok ∧
      spots.length = [("A", 10), ("B", 11)].length ∧
      (spots.map (fun s => s.ID)).Nodup ∧
      ∀ (q : String) (now : Nat), q ∉ [("A", 10), ("B", 11)].map Prod.fst →
        KnownUnparked twoSpotStore q →
        ParkVehicle lowestCfg noFaults now
          (parkEach lowestCfg Car twoSpotStore [("A", 10), ("B", 11)]).1 q Car =
          ((parkEach lowestCfg Car twoSpotStore [("A", 10), ("B", 11)]).1,
            .error .noAvailableSpots) :=
  ⟨by decide, by decide, by decide, by decide, by decide,
    sequential_parks_fill_free_spots lowestCfg Car twoSpotStore [("A", 10), ("B", 11)]
      (by decide) (by decide) (by decide)
      (by
        intro q hq
        simp only [List.mem_cons, List.mem_singleton, List.not_mem_nil, or_false] at hq
        rcases hq with rfl | rfl
        · exact ⟨⟨1, "A", Car⟩, ⟨1, 1, 1, 1, some 2⟩, by decide, by decide, rfl⟩
        · exact ⟨⟨2, "B", Car⟩, ⟨2, 2, 1, 3, some 4⟩, by decide, by decide, rfl⟩)
      (by decide)⟩

end ParkingLot
